import Mathlib

/-!
# Verification of the biliUtility event ingestion and aggregation pipeline

Shallow embedding of the core of the `biliUtility` repository:

* `app/services/parser.py` — `ChatLogParser` (free-text log lines → typed events),
* `app/state.py` — `WidgetState` (milestone aggregation), `ProcessedFilesTracker`,
* `app/services/watcher.py` — `LogWatcherService` (file scanning and tailing),
* `app/routers/sockets.py` — TTS autoplay toggle and manual play handlers,
* `app/services/tts.py` — `TTSProcessor._process_queue` (queue consumer).

Python strings are modelled as `List Char` with Python's `str.find` / slicing
semantics (including the `-1` failure value of `find` and negative-index slicing).
Python floats are modelled as exact rationals (`ℚ`); the spec's
"within floating-point tolerance" clauses are proved exactly in this model.
-/

attribute [local semireducible] Rat.add Rat.sub Rat.mul Rat.inv

namespace BiliUtility

/-! ## Python string primitives (`str.find`, slicing, `strip`, `int`, `float`) -/

/-- Character list of a Lean string literal (our model of a Python `str`). -/
def chars (s : String) : List Char := s.data

/-- Auxiliary for `str.find`: index of the first occurrence of `sub` in `s`,
counting from `i`. -/
def findAux (sub : List Char) : List Char → Nat → Option Nat
  | [], i => if sub.isEmpty then some i else none
  | c :: rest, i =>
      if sub.isPrefixOf (c :: rest) then some i else findAux sub rest (i + 1)

/-- Python `s.find(sub)`: index of first occurrence, `-1` if absent. -/
def pyFind (s sub : List Char) : Int :=
  match findAux sub s 0 with
  | some i => (i : Int)
  | none => -1

/-- Python `s.find(sub, start)`: like `pyFind` but searching from `start`
(with Python's clamping of the start index). -/
def pyFindFrom (s sub : List Char) (start : Int) : Int :=
  let st : Nat := if start < 0 then ((s.length : Int) + start).toNat
                  else min start.toNat s.length
  match findAux sub (s.drop st) 0 with
  | some i => ((st + i : Nat) : Int)
  | none => -1

/-- Normalize a (possibly negative) Python slice index to a `Nat` position. -/
def sliceIdx (len : Nat) (i : Int) : Nat :=
  if i < 0 then ((len : Int) + i).toNat else min i.toNat len

/-- Python `s[a:b]` (both bounds present, possibly negative). -/
def pySlice (s : List Char) (a b : Int) : List Char :=
  (s.take (sliceIdx s.length b)).drop (sliceIdx s.length a)

/-- Python `s[:b]`. -/
def pySliceTo (s : List Char) (b : Int) : List Char :=
  s.take (sliceIdx s.length b)

/-- Python `s[a:]`. -/
def pySliceFrom (s : List Char) (a : Int) : List Char :=
  s.drop (sliceIdx s.length a)

/-- ASCII whitespace stripped by Python's `str.strip()` (the log grammar
contains no exotic Unicode whitespace). -/
def isPyWs (c : Char) : Bool :=
  c = ' ' || c = '\t' || c = '\n' || c = '\r' || c = Char.ofNat 11 || c = Char.ofNat 12

/-- Python `s.strip()`. -/
def pyStrip (s : List Char) : List Char :=
  ((s.dropWhile isPyWs).reverse.dropWhile isPyWs).reverse

/-- Python `s.lstrip(BOM)` as used on the timestamp prefix. -/
def stripBOM (s : List Char) : List Char :=
  s.dropWhile (fun c => c = Char.ofNat 0xFEFF)

/-- Numeric value of a list of ASCII digits. -/
def digitsToNat (s : List Char) : Nat :=
  s.foldl (fun acc c => acc * 10 + (c.toNat - '0'.toNat)) 0

/-- Python `int(s)`: optional surrounding whitespace, optional sign, then a
nonempty digit run (underscore separators and non-ASCII digits do not occur in
the log grammar and are not modelled). `none` models the `ValueError`. -/
def pyInt (s : List Char) : Option Int :=
  let t := pyStrip s
  match t with
  | '+' :: rest => if rest ≠ [] ∧ rest.all Char.isDigit then some (digitsToNat rest) else none
  | '-' :: rest => if rest ≠ [] ∧ rest.all Char.isDigit then some (-(digitsToNat rest : Int)) else none
  | _ => if t ≠ [] ∧ t.all Char.isDigit then some (digitsToNat t) else none

/-- Value of `ip.fp` as an exact rational. -/
def decimalToRat (ip fp : List Char) : ℚ :=
  (digitsToNat ip : ℚ) + (digitsToNat fp : ℚ) / ((10 : ℚ) ^ fp.length)

/-- Python `float(s)` on plain decimals: optional surrounding whitespace,
optional sign, digits with an optional single point, at least one digit
(exponents, `inf`/`nan` and underscores do not occur in the log grammar and are
not modelled). `none` models the `ValueError`. -/
def pyFloat (s : List Char) : Option ℚ :=
  let core := fun (t : List Char) =>
    let ip := t.takeWhile Char.isDigit
    let rest := t.dropWhile Char.isDigit
    match rest with
    | [] => if ip ≠ [] then some (decimalToRat ip []) else none
    | '.' :: fp =>
        if fp.all Char.isDigit ∧ (ip ≠ [] ∨ fp ≠ []) then some (decimalToRat ip fp) else none
    | _ => none
  let t := pyStrip s
  match t with
  | '+' :: rest => core rest
  | '-' :: rest => (core rest).map Neg.neg
  | _ => core t

/-! ## `datetime.strptime` on the format `%Y-%m-%d %H:%M:%S` and `isoformat` -/

/-- A Python `datetime` value (date components only; the log format carries
no sub-second or timezone information). -/
structure DateTime where
  year : Nat
  month : Nat
  day : Nat
  hour : Nat
  minute : Nat
  second : Nat
deriving DecidableEq

/-- Digit value of an ASCII digit character. -/
def digitVal (c : Char) : Nat := c.toNat - '0'.toNat

/-- `%Y`: exactly four digits. -/
def parseYear : List Char → Option (Nat × List Char)
  | c1 :: c2 :: c3 :: c4 :: rest =>
      if c1.isDigit ∧ c2.isDigit ∧ c3.isDigit ∧ c4.isDigit then
        some (digitVal c1 * 1000 + digitVal c2 * 100 + digitVal c3 * 10 + digitVal c4, rest)
      else none
  | _ => none

/-- `%m`: the CPython alternation `1[0-2]|0[1-9]|[1-9]` (ordered; because every
two-digit branch is followed by a non-digit literal in the format, backtracking
to a shorter branch can never rescue a failed match). -/
def parseMonth : List Char → Option (Nat × List Char)
  | [] => none
  | [c1] => if '1' ≤ c1 ∧ c1 ≤ '9' then some (digitVal c1, []) else none
  | c1 :: c2 :: rest =>
      if c1 = '1' ∧ '0' ≤ c2 ∧ c2 ≤ '2' then some (10 + digitVal c2, rest)
      else if c1 = '0' ∧ '1' ≤ c2 ∧ c2 ≤ '9' then some (digitVal c2, rest)
      else if '1' ≤ c1 ∧ c1 ≤ '9' then some (digitVal c1, c2 :: rest)
      else none

/-- `%d`: the CPython alternation `3[01]|[12]\d|0[1-9]|[1-9]`. -/
def parseDay : List Char → Option (Nat × List Char)
  | [] => none
  | [c1] => if '1' ≤ c1 ∧ c1 ≤ '9' then some (digitVal c1, []) else none
  | c1 :: c2 :: rest =>
      if c1 = '3' ∧ ('0' = c2 ∨ c2 = '1') then some (30 + digitVal c2, rest)
      else if ('1' = c1 ∨ c1 = '2') ∧ c2.isDigit then some (digitVal c1 * 10 + digitVal c2, rest)
      else if c1 = '0' ∧ '1' ≤ c2 ∧ c2 ≤ '9' then some (digitVal c2, rest)
      else if '1' ≤ c1 ∧ c1 ≤ '9' then some (digitVal c1, c2 :: rest)
      else none

/-- `%H`: the CPython alternation `2[0-3]|[0-1]\d|\d`. -/
def parseHour : List Char → Option (Nat × List Char)
  | [] => none
  | [c1] => if c1.isDigit then some (digitVal c1, []) else none
  | c1 :: c2 :: rest =>
      if c1 = '2' ∧ '0' ≤ c2 ∧ c2 ≤ '3' then some (20 + digitVal c2, rest)
      else if ('0' = c1 ∨ c1 = '1') ∧ c2.isDigit then some (digitVal c1 * 10 + digitVal c2, rest)
      else if c1.isDigit then some (digitVal c1, c2 :: rest)
      else none

/-- `%M`: the CPython alternation `[0-5]\d|\d`. -/
def parseMinute : List Char → Option (Nat × List Char)
  | [] => none
  | [c1] => if c1.isDigit then some (digitVal c1, []) else none
  | c1 :: c2 :: rest =>
      if '0' ≤ c1 ∧ c1 ≤ '5' ∧ c2.isDigit then some (digitVal c1 * 10 + digitVal c2, rest)
      else if c1.isDigit then some (digitVal c1, c2 :: rest)
      else none

/-- `%S`: the CPython alternation `6[0-1]|[0-5]\d|\d` (leap seconds pass the
regex but are rejected by the `datetime` constructor below). -/
def parseSecond : List Char → Option (Nat × List Char)
  | [] => none
  | [c1] => if c1.isDigit then some (digitVal c1, []) else none
  | c1 :: c2 :: rest =>
      if c1 = '6' ∧ ('0' = c2 ∨ c2 = '1') then some (60 + digitVal c2, rest)
      else if '0' ≤ c1 ∧ c1 ≤ '5' ∧ c2.isDigit then some (digitVal c1 * 10 + digitVal c2, rest)
      else if c1.isDigit then some (digitVal c1, c2 :: rest)
      else none

/-- A literal character of the format string. -/
def parseLit (ch : Char) : List Char → Option (List Char)
  | [] => none
  | c :: rest => if c = ch then some rest else none

/-- Whitespace in the format string becomes the regex `\s+`. -/
def parseWs : List Char → Option (List Char)
  | [] => none
  | c :: rest => if isPyWs c then some (rest.dropWhile isPyWs) else none

/-- Leap year as in Python's `calendar.isleap` (used by `datetime`). -/
def isLeap (y : Nat) : Bool := y % 4 = 0 ∧ (y % 100 ≠ 0 ∨ y % 400 = 0)

/-- Days in a month, as enforced by the `datetime` constructor. -/
def daysInMonth (y m : Nat) : Nat :=
  if m = 2 then (if isLeap y then 29 else 28)
  else if m = 4 ∨ m = 6 ∨ m = 9 ∨ m = 11 then 30
  else 31

/-- `datetime.strptime(s, "%Y-%m-%d %H:%M:%S")`: the CPython `_strptime` regex
match (which must consume the whole string) followed by the `datetime`
constructor's range checks. `none` models the `ValueError`. -/
def pyStrptime (s : List Char) : Option DateTime :=
  match parseYear s with
  | none => none
  | some (y, s1) =>
  match parseLit '-' s1 with
  | none => none
  | some s2 =>
  match parseMonth s2 with
  | none => none
  | some (mo, s3) =>
  match parseLit '-' s3 with
  | none => none
  | some s4 =>
  match parseDay s4 with
  | none => none
  | some (d, s5) =>
  match parseWs s5 with
  | none => none
  | some s6 =>
  match parseHour s6 with
  | none => none
  | some (h, s7) =>
  match parseLit ':' s7 with
  | none => none
  | some s8 =>
  match parseMinute s8 with
  | none => none
  | some (mi, s9) =>
  match parseLit ':' s9 with
  | none => none
  | some s10 =>
  match parseSecond s10 with
  | none => none
  | some (sec, s11) =>
  if s11 = [] ∧ 1 ≤ y ∧ d ≤ daysInMonth y mo ∧ sec ≤ 59 then
    some ⟨y, mo, d, h, mi, sec⟩
  else none

/-- Decimal digits of `n`, left-padded with zeros to width `k`. -/
def numPad (k n : Nat) : List Char :=
  let ds := Nat.toDigits 10 n
  List.replicate (k - ds.length) '0' ++ ds

/-- Python `datetime.isoformat()` for a whole-second datetime. -/
def isoFormat (t : DateTime) : List Char :=
  numPad 4 t.year ++ ['-'] ++ numPad 2 t.month ++ ['-'] ++ numPad 2 t.day ++ ['T'] ++
  numPad 2 t.hour ++ [':'] ++ numPad 2 t.minute ++ [':'] ++ numPad 2 t.second

/-- Sort key realizing Python's lexicographic `datetime` comparison
(components of a constructor-validated datetime are below 100). -/
def dtKey (t : DateTime) : Nat :=
  ((((t.year * 100 + t.month) * 100 + t.day) * 100 + t.hour) * 100 + t.minute) * 100 + t.second

/-! ## The event data model (`app/models.py`) -/

/-- `MessageType` of `app/models.py`. -/
inductive MessageType where
  | DM
  | FREE_GIFT
  | PAID_GIFT
  | GUARD
  | SUPERCHAT
deriving DecidableEq

/-- `MessageType(msg_type_str)`: the enum lookup, `none` models `ValueError`. -/
def messageTypeOf (s : List Char) : Option MessageType :=
  if s = chars "dm" then some .DM
  else if s = chars "free_gift" then some .FREE_GIFT
  else if s = chars "paid_gift" then some .PAID_GIFT
  else if s = chars "guard" then some .GUARD
  else if s = chars "superchat" then some .SUPERCHAT
  else none

/-- The `content` dict of a `ParsedMessage`, as the tagged variant each parser
branch actually constructs. -/
inductive MsgContent where
  | dm (message : List Char)
  | gift (gift_name : List Char) (quantity : Int) (value : ℚ) (currency : List Char)
  | guard (duration : Int) (guard_type : List Char) (value : ℚ) (currency : List Char)
  | superchat (amount : ℚ) (message : List Char)
deriving DecidableEq

namespace MsgContent

/-- `content.get('value', 0)`. -/
def getValue : MsgContent → ℚ
  | .gift _ _ v _ => v
  | .guard _ _ v _ => v
  | _ => 0

/-- `content.get('quantity', 0)`. -/
def getQuantity : MsgContent → Int
  | .gift _ q _ _ => q
  | _ => 0

/-- `content.get('amount', 0)`. -/
def getAmount : MsgContent → ℚ
  | .superchat a _ => a
  | _ => 0

/-- `content.get('duration', 1)`. -/
def getDuration : MsgContent → Int
  | .guard d _ _ _ => d
  | _ => 1

/-- `content.get('guard_type')`. -/
def getGuardType : MsgContent → Option (List Char)
  | .guard _ gt _ _ => some gt
  | _ => none

end MsgContent

/-- `ParsedMessage` of `app/models.py` (fields the core pipeline reads; the
annotation fields `translation`/`pinyin`/`formatted_text`/`command_segments`
are filled by the out-of-scope text-annotation collaborator). The Python
` unique_id` is `Optional[str]`; `[]` models both `None` and `""`, which are
interchangeable for the only use site (`if message.unique_id:`). -/
structure ParsedMessage where
  timestamp : DateTime
  type : MessageType
  username : List Char
  content : MsgContent
  tts_enabled : Bool := false
  tts_text : Option (List Char) := none
  webhook_type : Option (List Char) := none
  unique_id : List Char := []
  is_read : Bool := false
deriving DecidableEq

/-! ## The aggregator (`WidgetState` of `app/state.py`) -/

/-- Iterated body of the source's milestone wrap loop
`while milestone_progress >= milestone_goal: milestone_progress -= goal; count += 1`,
cut off after `n` iterations. -/
def wrapIter : Nat → Int → ℚ × Int → ℚ × Int
  | 0, _, pc => pc
  | n + 1, g, (p, c) => if (g : ℚ) ≤ p then wrapIter n g (p - g, c + 1) else (p, c)

/-- The milestone wrap loop. The source's `while` loop terminates exactly when
the configured (integer) goal is positive; each iteration then decreases the
progress by at least 1, so the iteration bound `p.num.toNat + 1` strictly
exceeds the number of iterations the loop executes (`wrapIter_lt` below) and
`wrapMilestone` equals the loop there. For a non-positive goal the source
loop either does not run or never terminates; the model returns the state
unchanged and every theorem assumes a positive goal. -/
def wrapMilestone (g : Int) (p : ℚ) (c : Int) : ℚ × Int :=
  if 0 < g then wrapIter (p.num.toNat + 1) g (p, c) else (p, c)

/-- The mutable fields of `WidgetState` that `add_message`,
`recalculate_milestones` and the TTS socket handlers touch. The Python
`tts_queue` holds references to the very objects stored in `tts_messages`
(keyed by `unique_id`), so queue entries are modelled as
`(unique_id, should_mark_read)` pairs resolved through `tts_messages`. -/
structure WState where
  paid_gift_total_value : ℚ := 0
  paid_gift_count : Int := 0
  superchat_total_value : ℚ := 0
  membership_total_value : ℚ := 0
  guard_counts : List (List Char × Int) := []
  milestone_progress : ℚ := 0
  milestone_count : Int := 0
  total_guard_count : Int := 0
  recent_messages : List ParsedMessage := []
  tts_queue : List (List Char × Bool) := []
  tts_playing : Option (List Char) := none
  tts_autoplay : Bool := false
  tts_messages : List (List Char × ParsedMessage) := []
  member_queue : List ParsedMessage := []
deriving DecidableEq

/-- The `WidgetState()` initial state. -/
def initState : WState := {}

/-- Python dict update `d[k] = v` (insertion order kept, overwrite in place). -/
def dictSet (k : List Char) (v : ParsedMessage) :
    List (List Char × ParsedMessage) → List (List Char × ParsedMessage)
  | [] => [(k, v)]
  | (k1, v1) :: rest => if k1 = k then (k, v) :: rest else (k1, v1) :: dictSet k v rest

/-- Python dict lookup `d.get(k)`. -/
def dictGet (k : List Char) : List (List Char × ParsedMessage) → Option ParsedMessage
  | [] => none
  | (k1, v1) :: rest => if k1 = k then some v1 else dictGet k rest

/-- `self.guard_counts[gt] = self.guard_counts.get(gt, 0) + duration`. -/
def bumpGuardCount (k : List Char) (d : Int) :
    List (List Char × Int) → List (List Char × Int)
  | [] => [(k, d)]
  | (k1, v1) :: rest => if k1 = k then (k, v1 + d) :: rest else (k1, v1) :: bumpGuardCount k d rest

/-- `WidgetState.add_message` (`app/state.py`), with the milestone goal read
from `gift_config.get_milestone_goal()` passed as the parameter `goal`. -/
def addMessage (goal : Int) (s : WState) (m : ParsedMessage) : WState :=
  let s :=
    { s with
      recent_messages := s.recent_messages ++ [m]
      tts_messages :=
        if m.tts_enabled ∧ m.unique_id ≠ [] then dictSet m.unique_id m s.tts_messages
        else s.tts_messages }
  match m.type with
  | .PAID_GIFT =>
      let pc := wrapMilestone goal (s.milestone_progress + m.content.getValue) s.milestone_count
      { s with
        paid_gift_total_value := s.paid_gift_total_value + m.content.getValue
        paid_gift_count := s.paid_gift_count + m.content.getQuantity
        milestone_progress := pc.1
        milestone_count := pc.2 }
  | .GUARD =>
      let pc := wrapMilestone goal (s.milestone_progress + m.content.getValue) s.milestone_count
      { s with
        guard_counts :=
          match m.content.getGuardType with
          | some gt => bumpGuardCount gt m.content.getDuration s.guard_counts
          | none => s.guard_counts
        total_guard_count := s.total_guard_count + m.content.getDuration
        membership_total_value := s.membership_total_value + m.content.getValue
        milestone_progress := pc.1
        milestone_count := pc.2
        member_queue := s.member_queue ++ [m]
        tts_queue :=
          if s.tts_autoplay ∧ ¬m.is_read then s.tts_queue ++ [(m.unique_id, true)]
          else s.tts_queue }
  | .SUPERCHAT =>
      let pc := wrapMilestone goal (s.milestone_progress + m.content.getAmount) s.milestone_count
      { s with
        superchat_total_value := s.superchat_total_value + m.content.getAmount
        milestone_progress := pc.1
        milestone_count := pc.2
        tts_queue :=
          if s.tts_autoplay ∧ ¬m.is_read then s.tts_queue ++ [(m.unique_id, true)]
          else s.tts_queue }
  | _ => s

/-- `WidgetState.recalculate_milestones` (`app/state.py`). Python's float
`total // g` is `⌊total / g⌋` and `total % g` is `total - g * ⌊total / g⌋`. -/
def recalcMilestones (new_goal : Int) (s : WState) : WState :=
  if new_goal ≤ 0 then s
  else
    let total := s.paid_gift_total_value + s.membership_total_value + s.superchat_total_value
    { s with
      milestone_count := ⌊total / (new_goal : ℚ)⌋
      milestone_progress := total - new_goal * ⌊total / (new_goal : ℚ)⌋ }

/-- Recording a whole event sequence: the per-line `add_message` calls the
log watcher issues, in log order, against a fixed configured goal. -/
def processAll (goal : Int) (s : WState) (msgs : List ParsedMessage) : WState :=
  msgs.foldl (addMessage goal) s

/-- The qualifying revenue one event contributes to the milestone counters:
exactly the amount the corresponding `add_message` branch adds. -/
def qualValue (m : ParsedMessage) : ℚ :=
  match m.type with
  | .PAID_GIFT => m.content.getValue
  | .GUARD => m.content.getValue
  | .SUPERCHAT => m.content.getAmount
  | _ => 0

/-! ## TTS socket handlers (`app/routers/sockets.py`) and the queue consumer
(`TTSProcessor._process_queue` of `app/services/tts.py`) -/

/-- `[msg for msg in state.tts_messages.values() if not msg.is_read]`. -/
def unreadMessages (s : WState) : List ParsedMessage :=
  (s.tts_messages.map Prod.snd).filter (fun m => !m.is_read)

/-- Python's stable `unread.sort(key=lambda m: m.timestamp)` (insertion sort
on a total preorder is stable, like Timsort). -/
def sortByTimestamp (l : List ParsedMessage) : List ParsedMessage :=
  List.insertionSort (fun a b => dtKey a.timestamp ≤ dtKey b.timestamp) l

/-- `handle_tts_toggle_autoplay` (`app/routers/sockets.py`): set the flag;
when turning on, enqueue the single oldest unread message if the queue is
empty; when turning off, drain the whole queue. -/
def toggleAutoplay (enabled : Bool) (s : WState) : WState :=
  if enabled then
    let s1 := { s with tts_autoplay := true }
    match sortByTimestamp (unreadMessages s1), s1.tts_queue with
    | m :: _, [] => { s1 with tts_queue := [(m.unique_id, true)] }
    | _, _ => s1
  else
    { s with tts_autoplay := false, tts_queue := [] }

/-- `handle_tts_play_message` (`app/routers/sockets.py`): when the id is
known, enqueue it with the mark-read flag set (unconditionally `True`). -/
def playMessage (uid : List Char) (s : WState) : WState :=
  match dictGet uid s.tts_messages with
  | some _ => { s with tts_queue := s.tts_queue ++ [(uid, true)] }
  | none => s

/-- `msg.is_read = True` on the object stored under `uid` (the queue holds a
reference to the same object that `tts_messages` holds). -/
def markRead (uid : List Char) :
    List (List Char × ParsedMessage) → List (List Char × ParsedMessage)
  | [] => []
  | (k, v) :: rest =>
      if k = uid then (k, { v with is_read := true }) :: rest
      else (k, v) :: markRead uid rest

/-- One full iteration of the queue consumer `TTSProcessor._process_queue`
(`app/services/tts.py`), after its playback awaits complete: dequeue one
entry, trigger webhook and audio (external effects outside this state), mark
the message read when the entry is flagged, clear `tts_playing`. With an
empty queue the source blocks on `get`; the model returns the state. -/
def consumeOne (s : WState) : WState :=
  match s.tts_queue with
  | [] => s
  | (uid, should_mark_read) :: rest =>
      { s with
        tts_queue := rest
        tts_messages := if should_mark_read then markRead uid s.tts_messages else s.tts_messages
        tts_playing := none }

/-! ## File tracker (`ProcessedFilesTracker` of `app/state.py`) and the log
watcher (`LogWatcherService` of `app/services/watcher.py`) -/

/-- `ProcessedFilesTracker`: the in-memory set together with the append-only
ledger file `accessed_file.txt`. -/
structure Tracker where
  processed : List (List Char) := []
  ledger : List (List Char) := []
deriving DecidableEq

/-- `ProcessedFilesTracker.is_processed`. -/
def isProcessed (t : Tracker) (filename : List Char) : Bool :=
  t.processed.contains filename

/-- `ProcessedFilesTracker.mark_processed`: no-op when already present,
otherwise add to the set and synchronously append one ledger line. -/
def markProcessed (t : Tracker) (filename : List Char) : Tracker :=
  if t.processed.contains filename then t
  else { processed := t.processed ++ [filename], ledger := t.ledger ++ [filename] }

/-- Python string `<=` (lexicographic by code point, a proper prefix sorting
first) — the order behind `matching_files.sort()`. -/
def strLe : List Char → List Char → Bool
  | [], _ => true
  | _ :: _, [] => false
  | a :: as, b :: bs => if a < b then true else if b < a then false else strLe as bs

/-- `LogWatcherService._get_target_files`: keep directory entries matching
the `room_..._` pattern with the `.txt` extension that are not yet processed,
sorted lexically. (The source then joins the directory path onto each name;
the model works with bare file names throughout.) -/
def getTargetFiles (t : Tracker) (pat : List Char) (listing : List (List Char)) :
    List (List Char) :=
  List.insertionSort (fun a b => strLe a b = true)
    (listing.filter (fun f =>
      pat.isPrefixOf f && (chars ".txt").isSuffixOf f && !isProcessed t f))

/-- The log directory: file names with their contents. Offsets are modelled
in lines (the source tracks byte offsets via `seek`/`tell`; the log files are
written in whole lines, making line counts the faithful abstraction). -/
abbrev FileSys := List (List Char × List (List Char))

/-- Names in the directory listing (`os.listdir`). -/
def fsNames (fs : FileSys) : List (List Char) := fs.map Prod.fst

/-- Current content of a named file. -/
def fsContent (fs : FileSys) (f : List Char) : List (List Char) :=
  match fs.find? (fun e => e.1 = f) with
  | some e => e.2
  | none => []

/-- The loop-local state of `LogWatcherService._watch_loop`: the shared
tracker, the tail cursor (`current_tail_file`/`active_handle` collapse to one
option since the source keeps them in sync, plus `last_offset`), and the
accumulated trace of lines handed to `_process_line`. -/
structure WatchState where
  tracker : Tracker := {}
  currentTail : Option (List Char) := none
  lastOffset : Nat := 0
  delivered : List (List Char) := []
deriving DecidableEq

/-- `LogWatcherService._read_file_fully`: read start to finish, hand every
line to `_process_line`, then `mark_processed`. -/
def readFileFully (fs : FileSys) (st : WatchState) (f : List Char) : WatchState :=
  { st with
    delivered := st.delivered ++ fsContent fs f
    tracker := markProcessed st.tracker f }

/-- The mid-tail rotation path of `_watch_loop` step 3: a newer file exists,
so finish the currently tailed file from the current offset to end-of-file,
close it, and mark it processed (no re-open from offset `0`). -/
def finishCurrent (fs : FileSys) (st : WatchState) (f : List Char) : WatchState :=
  { st with
    delivered := st.delivered ++ (fsContent fs f).drop st.lastOffset
    currentTail := none
    tracker := markProcessed st.tracker f }

/-- `_watch_loop` step 3: every matched file except the newest is read fully;
the one being tailed (if among them) takes the finish-from-offset path. -/
def processHistoricals (fs : FileSys) (st : WatchState) (files : List (List Char)) :
    WatchState :=
  files.foldl
    (fun st fp =>
      if st.currentTail = some fp then finishCurrent fs st fp else readFileFully fs st fp)
    st

/-- `_watch_loop` steps 4–5: switch the tail target if it changed (reading
the remainder of the old file and marking it processed), open the new target
at offset `0`, then read all currently available lines and advance the
offset; a shrunken file (truncation) resets the offset to `0` first. -/
def switchAndTail (fs : FileSys) (st : WatchState) (target : List Char) : WatchState :=
  let st :=
    if st.currentTail = some target then st
    else
      let st :=
        match st.currentTail with
        | some old =>
            { st with
              delivered := st.delivered ++ (fsContent fs old).drop st.lastOffset
              tracker := markProcessed st.tracker old
              currentTail := none }
        | none => st
      { st with currentTail := some target, lastOffset := 0 }
  match st.currentTail with
  | some f =>
      let content := fsContent fs f
      let off := if content.length < st.lastOffset then 0 else st.lastOffset
      let newLines := content.drop off
      { st with
        delivered := st.delivered ++ newLines
        lastOffset := if newLines = [] then off else content.length }
  | none => st

/-- One iteration of the `while self.running` body of `_watch_loop`, for a
fixed scan result. When no file matches, the source either just sleeps
(nothing open) or indexes `target_files[0]` on an empty list and the raised
`IndexError` is swallowed by the per-iteration `except` — either way the
state is unchanged. -/
def watchIter (fs : FileSys) (pat : List Char) (st : WatchState) : WatchState :=
  let targets := getTargetFiles st.tracker pat (fsNames fs)
  match targets.getLast? with
  | none => st
  | some target => switchAndTail fs (processHistoricals fs st targets.dropLast) target

/-! ## The event parser (`ChatLogParser` of `app/services/parser.py`) -/

/-- The three guard tiers, in `GUARD_TYPES` order. -/
def guardTypes : List (List Char) := [chars "舰长", chars "提督", chars "总督"]

/-- `GUARD_CONFIG.get(guard_type, {}).get('webhook_type')`. -/
def guardWebhookType (gt : List Char) : Option (List Char) :=
  if gt = chars "舰长" then some (chars "captain")
  else if gt = chars "提督" then some (chars "admiral")
  else if gt = chars "总督" then some (chars "governor")
  else none

/-- First `some` of a list of attempts — realizes the ordered choice of regex
backtracking. -/
def firstSome {α : Type} : List (Option α) → Option α
  | [] => none
  | some a :: _ => some a
  | none :: rest => firstSome rest

/-- Match `([\d.]+) 元$`: the greedy group, the literal ` 元`, the end anchor.
Backtracking cannot shorten the group, since the following literal starts
with a space and the group class has none. -/
def matchValueTail (s : List Char) : Option (List Char) :=
  let v := s.takeWhile (fun c => c.isDigit || c = '.')
  if v ≠ [] ∧ s.drop v.length = chars " 元" then some v else none

/-- Match ` (舰长|提督|总督)，总价 ([\d.]+) 元$` (ordered alternation with
full continuation checks). Returns `(guard type, value digits)`. -/
def matchGuardTypeTail (s : List Char) : Option (List Char × List Char) :=
  match s with
  | ' ' :: s1 =>
      firstSome (guardTypes.map (fun gt =>
        if gt.isPrefixOf s1 ∧ (chars "，总价 ").isPrefixOf (s1.drop gt.length) then
          (matchValueTail (s1.drop (gt.length + 4))).map (fun v => (gt, v))
        else none))
  | _ => none

/-- Match `([^\s]+) (舰长|提督|总督)，总价 ([\d.]+) 元$`: the greedy non-space
group must end exactly at the next whitespace character (backtracking to a
shorter group would make the following literal space face a non-space). -/
def matchUnitTail (s : List Char) : Option (List Char × List Char × List Char) :=
  let u := s.takeWhile (fun c => !isPyWs c)
  if u ≠ [] then (matchGuardTypeTail (s.drop u.length)).map (fun p => (u, p.1, p.2))
  else none

/-- Match `(\d+)([^\s]+) ...$`: the greedy digit group with backtracking —
the longest digit prefix whose continuation matches wins. -/
def matchDigitsTail (s : List Char) :
    Option (List Char × List Char × List Char × List Char) :=
  let ds := s.takeWhile Char.isDigit
  firstSome ((List.range ds.length).map (fun i =>
    let k := ds.length - i
    (matchUnitTail (s.drop k)).map (fun p => (s.take k, p.1, p.2.1, p.2.2))))

/-- CPython `re.match` of the guard pattern
`(.+?) 购买了 (\d+)([^\s]+) (舰长|提督|总督)，总价 ([\d.]+) 元` anchored at
both ends: the lazy leading group tries split points left to right (at least
one character, no newline), at each of which the literal and the rest of the
pattern must follow. Returns
`(username, duration digits, duration unit, guard type, value digits)`. -/
def guardRegexMatch (content : List Char) :
    Option (List Char × List Char × List Char × List Char × List Char) :=
  firstSome ((List.range content.length).map (fun i =>
    if 1 ≤ i ∧ ¬(content.take i).contains '\n' ∧
        (chars " 购买了 ").isPrefixOf (content.drop i) then
      (matchDigitsTail (content.drop (i + 5))).map
        (fun p => (content.take i, p.1, p.2.1, p.2.2.1, p.2.2.2))
    else none))

/-- Python `content.split(sep, 1)`. -/
def splitFirst (sep s : List Char) : List (List Char) :=
  match findAux sep s 0 with
  | some i => [s.take i, s.drop (i + sep.length)]
  | none => [s]

/-- `ChatLogParser._parse_dm`: total — a missing `：` separator still yields
a message (the whole content becomes the username, the body is empty). -/
def parseDm (t : DateTime) (content : List Char) : ParsedMessage :=
  let parts := splitFirst (chars "：") content
  let username := match parts with | u :: _ => u | [] => []
  let message := match parts with | _ :: m :: _ => m | _ => []
  { timestamp := t, type := .DM, username := username,
    content := .dm message,
    unique_id := isoFormat t ++ chars "_" ++ username ++ chars "_dm" }

/-- `ChatLogParser._parse_gift`: positional extraction by `str.find`. A miss
(`find` returning `-1`) flows into Python slicing and index arithmetic
unchecked; only the `int`/`float` conversions can raise, modelled by `none`
(which the caller's `except` turns into a dropped line). -/
def parseGift (t : DateTime) (content : List Char) (msgType : MessageType)
    (currency : List Char) : Option ParsedMessage :=
  let username_end := pyFind content (chars " 赠送了 ")
  let username := pySliceTo content username_end
  let gift_start := username_end + 5
  let gift_end := pyFindFrom content (chars " x ") gift_start
  let gift_name := pySlice content gift_start gift_end
  let quantity_start := gift_end + 3
  let quantity_end := pyFindFrom content (chars "，") quantity_start
  match pyInt (pySlice content quantity_start quantity_end) with
  | none => none
  | some quantity =>
      let value_start := pyFind content (chars "总价 ") + 3
      let value_end := pyFind content (' ' :: currency)
      match pyFloat (pySlice content value_start value_end) with
      | none => none
      | some value =>
          some { timestamp := t, type := msgType, username := username,
                 content := .gift gift_name quantity value currency,
                 unique_id := isoFormat t ++ chars "_" ++ username ++
                   (if msgType = .FREE_GIFT then chars "_free_gift"
                    else chars "_paid_gift") }

/-- `ChatLogParser._parse_guard`: structured regex match first, manual
delimiter scan as fallback; both branches assemble the same message shape,
whose id embeds the guard tier. -/
def parseGuard (t : DateTime) (content : List Char) : Option ParsedMessage :=
  let parsed : Option (List Char × Int × List Char × ℚ) :=
    match guardRegexMatch content with
    | some (u, d, _, gt, v) =>
        match pyInt d, pyFloat v with
        | some dn, some vq => some (u, dn, gt, vq)
        | _, _ => none
    | none =>
        let username_end := pyFind content (chars " 购买了 ")
        let username := pySliceTo content username_end
        let duration_start := username_end + 5
        let ds := (pySliceFrom content duration_start).takeWhile Char.isDigit
        match pyInt ds with
        | none => none
        | some dn =>
            let guard_type :=
              match guardTypes.filter (fun gt => 0 ≤ pyFind content gt) with
              | gt :: _ => gt
              | [] => chars "未知舰队等级"
            let value_start := pyFind content (chars "总价 ") + 3
            let value_end := pyFind content (chars " 元")
            match pyFloat (pySlice content value_start value_end) with
            | none => none
            | some vq => some (username, dn, guard_type, vq)
  match parsed with
  | none => none
  | some (username, dn, gt, vq) =>
      some { timestamp := t, type := .GUARD, username := username,
             content := .guard dn gt vq (chars "元"),
             tts_enabled := true,
             tts_text := some (username ++ chars "。\t 非常感谢您的支持！"),
             webhook_type := guardWebhookType gt,
             unique_id := isoFormat t ++ chars "_" ++ username ++ chars "_guard_" ++ gt,
             is_read := false }

/-- `ChatLogParser._parse_superchat`. -/
def parseSuperchat (t : DateTime) (content : List Char) : Option ParsedMessage :=
  let username_end := pyFind content (chars " 发送了 ")
  let username := pySliceTo content username_end
  let amount_start := username_end + 5
  let amount_end := pyFind content (chars " 元的醒目留言：")
  match pyFloat (pySlice content amount_start amount_end) with
  | none => none
  | some amount =>
      let message_start := amount_end + 8
      let message := pySliceFrom content message_start
      some { timestamp := t, type := .SUPERCHAT, username := username,
             content := .superchat amount message,
             tts_enabled := true,
             tts_text := some (username ++ chars "说: " ++ message),
             unique_id := isoFormat t ++ chars "_" ++ username ++ chars "_sc" }

/-- `ChatLogParser.parse_line`. The whole body runs inside one
`try/except ... return None`; the enum lookup failure is an explicit inner
`return None`. The function is total on its input — it never raises to its
caller, and every failure path yields `none`. -/
def parseLine (line : List Char) : Option ParsedMessage :=
  let timestamp_end := pyFind line (chars " [")
  if timestamp_end = -1 then none
  else
    let timestamp_str := stripBOM (pySliceTo line timestamp_end)
    match pyStrptime timestamp_str with
    | none => none
    | some timestamp =>
        let type_start := timestamp_end + 2
        let type_end := pyFindFrom line (chars "]") type_start
        if type_end = -1 then none
        else
          let msg_type_str := pySlice line type_start type_end
          match messageTypeOf msg_type_str with
          | none => none
          | some msgType =>
              let content := pyStrip (pySliceFrom line (type_end + 2))
              match msgType with
              | .DM => some (parseDm timestamp content)
              | .FREE_GIFT => parseGift timestamp content .FREE_GIFT (chars "银瓜子")
              | .PAID_GIFT => parseGift timestamp content .PAID_GIFT (chars "元")
              | .GUARD => parseGuard timestamp content
              | .SUPERCHAT => parseSuperchat timestamp content

/-! ## Spec-side predicates and concrete fixtures -/

/-- The cumulative qualifying revenue held in the aggregate state:
paid gifts + memberships + superchats (the `total_revenue` expression of
`recalculate_milestones`). -/
def qualTotal (s : WState) : ℚ :=
  s.paid_gift_total_value + s.membership_total_value + s.superchat_total_value

/-- The milestone invariant of spec §3: progress in `[0, goal)` and
`progress + count * goal` equal to the cumulative qualifying revenue. -/
def MilestoneInv (g : Int) (s : WState) : Prop :=
  0 ≤ s.milestone_progress ∧ s.milestone_progress < (g : ℚ) ∧
  s.milestone_progress + s.milestone_count * g = qualTotal s

/-- A token (username or gift name) that the find-based gift sub-grammar can
carry without colliding with any delimiter the parser searches for: nonempty
and free of whitespace and of the delimiter-leading characters `，`, `元`,
`总` and `银`. -/
def cleanTok (t : List Char) : Prop :=
  t ≠ [] ∧ ∀ c ∈ t, isPyWs c = false ∧ c ≠ '，' ∧ c ≠ '元' ∧ c ≠ '总' ∧ c ≠ '银'

/-- The guard tier stored in a guard event's content (`content['guard_type']`). -/
def guardTier : MsgContent → List Char
  | .guard _ gt _ _ => gt
  | _ => []

/-- The kind-determined tail of a parsed event's `unique_id`, read off the
five `unique_id=f"..."` constructions of `parser.py`: for guard events it
embeds the guard tier as well. -/
def idSuffix (m : ParsedMessage) : List Char :=
  match m.type with
  | .DM => chars "_dm"
  | .FREE_GIFT => chars "_free_gift"
  | .PAID_GIFT => chars "_paid_gift"
  | .SUPERCHAT => chars "_sc"
  | .GUARD => chars "_guard_" ++ guardTier m.content

/-- A paid-gift event of value 200 (the spec's worked example). -/
def paidGift200 : ParsedMessage :=
  { timestamp := ⟨2024, 1, 1, 0, 0, 0⟩, type := .PAID_GIFT,
    username := chars "u",
    content := .gift (chars "g") 1 200 (chars "元"),
    unique_id := chars "2024-01-01T00:00:00_u_paid_gift" }

/-- A superchat event of amount 7 (witness fixture). -/
def superchat7 : ParsedMessage :=
  { timestamp := ⟨2024, 1, 1, 0, 0, 1⟩, type := .SUPERCHAT,
    username := chars "v",
    content := .superchat 7 (chars "hi"),
    tts_enabled := true,
    unique_id := chars "2024-01-01T00:00:01_v_sc" }

/-- A state with two unread announce-eligible messages and a stale queued
entry (witness fixture for the autoplay toggle). -/
def toggleFixture : WState :=
  { initState with
    tts_autoplay := true
    tts_queue := [(chars "a", true)]
    tts_messages :=
      [(chars "a",
        { timestamp := ⟨2024, 1, 1, 0, 0, 5⟩, type := .SUPERCHAT,
          username := chars "x", content := .superchat 3 (chars "m1"),
          tts_enabled := true, unique_id := chars "a" }),
       (chars "b",
        { timestamp := ⟨2024, 1, 1, 0, 0, 2⟩, type := .SUPERCHAT,
          username := chars "y", content := .superchat 4 (chars "m2"),
          tts_enabled := true, unique_id := chars "b" })] }

end BiliUtility

namespace BiliUtility

/-! # Theorems -/

/-! ## Milestone wrap loop lemmas -/

theorem wrapIter_sum (g : Int) :
    ∀ (n : Nat) (p : ℚ) (c : Int),
      (wrapIter n g (p, c)).1 + (wrapIter n g (p, c)).2 * g = p + c * g := by
  intro n
  induction n with
  | zero => intro p c; simp [wrapIter]
  | succ n ih =>
      intro p c
      by_cases h : (g : ℚ) ≤ p
      · simp only [wrapIter, if_pos h]
        rw [ih]
        push_cast
        ring
      · simp [wrapIter, if_neg h]

theorem wrapIter_nonneg (g : Int) :
    ∀ (n : Nat) (p : ℚ) (c : Int), 0 ≤ p → 0 ≤ (wrapIter n g (p, c)).1 := by
  intro n
  induction n with
  | zero => intro p c hp; simpa [wrapIter] using hp
  | succ n ih =>
      intro p c hp
      by_cases h : (g : ℚ) ≤ p
      · simp only [wrapIter, if_pos h]
        exact ih _ _ (by linarith)
      · simpa [wrapIter, if_neg h] using hp

theorem wrapIter_lt (g : Int) (hg : 0 < g) :
    ∀ (n : Nat) (p : ℚ) (c : Int), (⌈p⌉).toNat < n → (wrapIter n g (p, c)).1 < g := by
  intro n
  induction n with
  | zero => intro p c h; exact absurd h (Nat.not_lt_zero _)
  | succ n ih =>
      intro p c h
      by_cases hle : (g : ℚ) ≤ p
      · simp only [wrapIter, if_pos hle]
        apply ih
        have h1 : (1 : ℚ) ≤ p := le_trans (by exact_mod_cast hg) hle
        have hceil1 : 1 ≤ ⌈p⌉ := by
          have := Int.ceil_le_ceil (α := ℚ) h1
          simpa using this
        have hsub : ⌈p - (g : ℚ)⌉ = ⌈p⌉ - g := Int.ceil_sub_int p g
        omega
      · simp only [wrapIter, if_neg hle]
        exact lt_of_not_le hle

theorem ceil_toNat_le_num_toNat (p : ℚ) : (⌈p⌉).toNat ≤ p.num.toNat := by
  rcases le_or_lt p 0 with h | h
  · have : ⌈p⌉ ≤ 0 := Int.ceil_le.mpr (by exact_mod_cast h)
    omega
  · have hnum : 0 < p.num := Rat.num_pos.mpr h
    have hden : (1 : ℚ) ≤ (p.den : ℚ) := by
      have := p.den_pos
      exact_mod_cast this
    have hle : p ≤ (p.num : ℚ) := by
      conv_lhs => rw [← Rat.num_div_den p]
      exact div_le_self (by positivity) hden
    have hc : ⌈p⌉ ≤ p.num := by
      have := Int.ceil_le_ceil (α := ℚ) hle
      simpa using this
    omega

theorem wrapMilestone_sum (g : Int) (p : ℚ) (c : Int) :
    (wrapMilestone g p c).1 + (wrapMilestone g p c).2 * g = p + c * g := by
  unfold wrapMilestone
  split
  · exact wrapIter_sum g _ p c
  · simp

theorem wrapMilestone_nonneg (g : Int) (p : ℚ) (c : Int) (hp : 0 ≤ p) :
    0 ≤ (wrapMilestone g p c).1 := by
  unfold wrapMilestone
  split
  · exact wrapIter_nonneg g _ p c hp
  · simpa using hp

theorem wrapMilestone_lt (g : Int) (p : ℚ) (c : Int) (hg : 0 < g) :
    (wrapMilestone g p c).1 < g := by
  unfold wrapMilestone
  rw [if_pos hg]
  exact wrapIter_lt g hg _ p c (by have := ceil_toNat_le_num_toNat p; omega)

/-! ## Aggregator invariant lemmas -/

theorem addMessage_milestone_qual (g : Int) (s : WState) (m : ParsedMessage)
    (h : m.type = .PAID_GIFT ∨ m.type = .GUARD ∨ m.type = .SUPERCHAT) :
    (addMessage g s m).milestone_progress =
      (wrapMilestone g (s.milestone_progress + qualValue m) s.milestone_count).1 ∧
    (addMessage g s m).milestone_count =
      (wrapMilestone g (s.milestone_progress + qualValue m) s.milestone_count).2 ∧
    qualTotal (addMessage g s m) = qualTotal s + qualValue m := by
  rcases h with h | h | h <;>
    refine ⟨?_, ?_, ?_⟩ <;> simp [addMessage, qualValue, qualTotal, h] <;> ring

theorem addMessage_milestone_nonqual (g : Int) (s : WState) (m : ParsedMessage)
    (h : m.type = .DM ∨ m.type = .FREE_GIFT) :
    (addMessage g s m).milestone_progress = s.milestone_progress ∧
    (addMessage g s m).milestone_count = s.milestone_count ∧
    qualTotal (addMessage g s m) = qualTotal s := by
  rcases h with h | h <;>
    refine ⟨?_, ?_, ?_⟩ <;> simp [addMessage, qualTotal, h]

theorem addMessage_inv (g : Int) (hg : 0 < g) (s : WState) (m : ParsedMessage)
    (hm : 0 ≤ qualValue m) (hs : MilestoneInv g s) :
    MilestoneInv g (addMessage g s m) := by
  obtain ⟨h0, h1, h2⟩ := hs
  have hgq : (0 : ℚ) < (g : ℚ) := by exact_mod_cast hg
  by_cases hq : m.type = .PAID_GIFT ∨ m.type = .GUARD ∨ m.type = .SUPERCHAT
  · obtain ⟨e1, e2, e3⟩ := addMessage_milestone_qual g s m hq
    refine ⟨?_, ?_, ?_⟩
    · rw [e1]
      exact wrapMilestone_nonneg _ _ _ (by linarith)
    · rw [e1]
      exact wrapMilestone_lt _ _ _ hg
    · rw [e1, e2, e3, wrapMilestone_sum]
      linarith
  · have hn : m.type = .DM ∨ m.type = .FREE_GIFT := by
      cases hty : m.type <;> simp_all
    obtain ⟨e1, e2, e3⟩ := addMessage_milestone_nonqual g s m hn
    exact ⟨by rw [e1]; exact h0, by rw [e1]; exact h1, by rw [e1, e2, e3]; exact h2⟩

theorem qualTotal_addMessage (g : Int) (s : WState) (m : ParsedMessage) :
    qualTotal (addMessage g s m) = qualTotal s + qualValue m := by
  by_cases hq : m.type = .PAID_GIFT ∨ m.type = .GUARD ∨ m.type = .SUPERCHAT
  · exact (addMessage_milestone_qual g s m hq).2.2
  · have hn : m.type = .DM ∨ m.type = .FREE_GIFT := by
      cases hty : m.type <;> simp_all
    rw [(addMessage_milestone_nonqual g s m hn).2.2]
    have : qualValue m = 0 := by
      rcases hn with h | h <;> simp [qualValue, h]
    rw [this, add_zero]

theorem processAll_inv (g : Int) (hg : 0 < g) :
    ∀ (msgs : List ParsedMessage) (s : WState),
      (∀ m ∈ msgs, 0 ≤ qualValue m) → MilestoneInv g s →
      MilestoneInv g (processAll g s msgs) := by
  intro msgs
  induction msgs with
  | nil => intro s _ hs; simpa [processAll] using hs
  | cons m rest ih =>
      intro s hnn hs
      have h1 : MilestoneInv g (addMessage g s m) :=
        addMessage_inv g hg s m (hnn m (List.mem_cons_self m rest)) hs
      have h2 := ih (addMessage g s m)
        (fun x hx => hnn x (List.mem_cons_of_mem m hx)) h1
      simpa [processAll] using h2

theorem qualTotal_processAll (g : Int) :
    ∀ (msgs : List ParsedMessage) (s : WState),
      qualTotal (processAll g s msgs) = qualTotal s + (msgs.map qualValue).sum := by
  intro msgs
  induction msgs with
  | nil => intro s; simp [processAll]
  | cons m rest ih =>
      intro s
      have := ih (addMessage g s m)
      simp only [processAll] at this ⊢
      simp only [List.foldl_cons, List.map_cons, List.sum_cons, this,
        qualTotal_addMessage]
      ring

theorem initState_inv (G : Int) (hG : 0 < G) : MilestoneInv G initState := by
  refine ⟨by simp [initState], ?_, by simp [initState, qualTotal]⟩
  have : (0 : ℚ) < (G : ℚ) := by exact_mod_cast hG
  simpa [initState] using this

/-! ## Claim C1 -/

/-- C1: For every sequence of recorded events whose qualifying revenue
(paid-gift values + guard/membership values + superchat amounts) sums to `R`,
processed by `add_message` against a fixed milestone goal `G > 0`, the final
aggregate state satisfies `milestone_progress ∈ [0, G)` and
`milestone_progress + milestone_count * G = R` — exactly, in the rational
model of float arithmetic — including events whose single value wraps the
goal more than once (the wrap is a loop, not a single subtraction). -/
theorem c1_milestone_invariant (G : Int) (msgs : List ParsedMessage)
    (hG : 0 < G) (hnn : ∀ m ∈ msgs, 0 ≤ qualValue m) :
    0 ≤ (processAll G initState msgs).milestone_progress ∧
    (processAll G initState msgs).milestone_progress < (G : ℚ) ∧
    (processAll G initState msgs).milestone_progress +
      (processAll G initState msgs).milestone_count * G =
      (msgs.map qualValue).sum := by
  obtain ⟨a, b, c⟩ := processAll_inv G hG msgs initState hnn (initState_inv G hG)
  refine ⟨a, b, ?_⟩
  rw [c, qualTotal_processAll]
  simp [qualTotal, initState]

theorem c1_milestone_invariant_witness :
    0 ≤ (processAll 3 initState [superchat7]).milestone_progress ∧
    (processAll 3 initState [superchat7]).milestone_progress < ((3 : Int) : ℚ) ∧
    (processAll 3 initState [superchat7]).milestone_progress +
      (processAll 3 initState [superchat7]).milestone_count * (3 : Int) =
      ([superchat7].map qualValue).sum :=
  c1_milestone_invariant 3 [superchat7] (by decide)
    (by intro m hm; rw [List.mem_singleton] at hm; subst hm; decide)

/-! ## Claim C2 -/

/-- C2: `recalculate_milestones(G2)` after recording any event sequence
yields the same `(milestone_count, milestone_progress)` as recording the
whole sequence against `G2` from the start; and, concretely, three paid
gifts of value 200 at goal 500 yield `(count, progress) = (1, 100)` while a
subsequent `recalculate_milestones(150)` yields `(4, 0)`. -/
theorem c2_recalculate_equivalence :
    (∀ (G1 G2 : Int) (msgs : List ParsedMessage), 0 < G1 → 0 < G2 →
      (∀ m ∈ msgs, 0 ≤ qualValue m) →
      (recalcMilestones G2 (processAll G1 initState msgs)).milestone_count =
        (processAll G2 initState msgs).milestone_count ∧
      (recalcMilestones G2 (processAll G1 initState msgs)).milestone_progress =
        (processAll G2 initState msgs).milestone_progress) ∧
    ((processAll 500 initState [paidGift200, paidGift200, paidGift200]).milestone_count = 1 ∧
     (processAll 500 initState [paidGift200, paidGift200, paidGift200]).milestone_progress = 100 ∧
     (recalcMilestones 150
        (processAll 500 initState [paidGift200, paidGift200, paidGift200])).milestone_count = 4 ∧
     (recalcMilestones 150
        (processAll 500 initState [paidGift200, paidGift200, paidGift200])).milestone_progress = 0) := by
  constructor
  · intro G1 G2 msgs h1 h2 hnn
    obtain ⟨p2nn, p2lt, p2eq⟩ := processAll_inv G2 h2 msgs initState hnn (initState_inv G2 h2)
    have hG2q : (0 : ℚ) < (G2 : ℚ) := by exact_mod_cast h2
    have ht1 : qualTotal (processAll G1 initState msgs) =
        qualTotal (processAll G2 initState msgs) := by
      rw [qualTotal_processAll, qualTotal_processAll]
    have hne : ¬ G2 ≤ 0 := by omega
    have hfloor : ⌊qualTotal (processAll G2 initState msgs) / (G2 : ℚ)⌋ =
        (processAll G2 initState msgs).milestone_count := by
      rw [Int.floor_eq_iff]
      constructor
      · rw [le_div_iff₀ hG2q]
        linarith
      · rw [div_lt_iff₀ hG2q]
        linarith
    have htot : (processAll G1 initState msgs).paid_gift_total_value +
        (processAll G1 initState msgs).membership_total_value +
        (processAll G1 initState msgs).superchat_total_value =
        qualTotal (processAll G2 initState msgs) := by
      rw [← ht1]; rfl
    constructor
    · simp only [recalcMilestones, if_neg hne]
      rw [htot, hfloor]
    · simp only [recalcMilestones, if_neg hne]
      rw [htot, hfloor]
      linarith
  · refine ⟨by decide, by decide, by decide, by decide⟩

theorem c2_recalculate_equivalence_witness :
    (recalcMilestones 150 (processAll 500 initState [paidGift200])).milestone_count =
      (processAll 150 initState [paidGift200]).milestone_count ∧
    (recalcMilestones 150 (processAll 500 initState [paidGift200])).milestone_progress =
      (processAll 150 initState [paidGift200]).milestone_progress :=
  c2_recalculate_equivalence.1 500 150 [paidGift200] (by decide) (by decide)
    (by intro m hm; rw [List.mem_singleton] at hm; subst hm; decide)

/-! ## Claim C10 -/

/-- C10: Calling `recalculate_milestones` with a non-positive new goal is a
silent no-op — the aggregate state, including `milestone_count` and
`milestone_progress`, is returned entirely unchanged and no error is
reported. -/
theorem c10_recalc_nonpositive_noop (g : Int) (s : WState) (h : g ≤ 0) :
    recalcMilestones g s = s := by
  unfold recalcMilestones
  rw [if_pos h]

theorem c10_recalc_nonpositive_noop_witness :
    recalcMilestones 0 initState = initState ∧
    recalcMilestones (-5) initState = initState :=
  ⟨c10_recalc_nonpositive_noop 0 initState (by decide),
   c10_recalc_nonpositive_noop (-5) initState (by decide)⟩

/-! ## Claim C7 -/

theorem markProcessed_contains_self (t : Tracker) (f : List Char) :
    f ∈ (markProcessed t f).processed := by
  unfold markProcessed
  split
  · next h => simpa using h
  · simp

/-- C7: after `mark_processed(f)`, the scanning step `_get_target_files`
never selects `f` again, for any pattern and any directory listing; and
`mark_processed` is idempotent — the second call changes nothing (in
particular it appends no second ledger line). -/
theorem c7_tracker_processed (t : Tracker) (f : List Char) :
    (∀ (pat : List Char) (listing : List (List Char)),
        f ∉ getTargetFiles (markProcessed t f) pat listing) ∧
    markProcessed (markProcessed t f) f = markProcessed t f ∧
    (markProcessed (markProcessed t f) f).ledger = (markProcessed t f).ledger := by
  have hmem : f ∈ (markProcessed t f).processed := markProcessed_contains_self t f
  have hidem : markProcessed (markProcessed t f) f = markProcessed t f := by
    have hc : (markProcessed t f).processed.contains f = true := by simpa using hmem
    generalize hgen : markProcessed t f = u at hc ⊢
    unfold markProcessed
    rw [if_pos hc]
  refine ⟨?_, hidem, by rw [hidem]⟩
  intro pat listing hf
  have hf2 := (List.perm_insertionSort (fun a b : List Char => strLe a b = true) _).mem_iff.mp hf
  rw [List.mem_filter] at hf2
  have hcond := hf2.2
  simp only [isProcessed, Bool.and_eq_true, Bool.not_eq_true'] at hcond
  have : f ∈ (markProcessed t f).processed → False := by
    intro hin
    have : (markProcessed t f).processed.contains f = true := by simpa using hin
    rw [hcond.2] at this
    exact Bool.false_ne_true this
  exact this hmem

theorem c7_tracker_processed_witness :
    (chars "room_1-20260101_050632.txt" ∉
      getTargetFiles (markProcessed { processed := [], ledger := [] }
          (chars "room_1-20260101_050632.txt"))
        (chars "room_1-20260101_")
        [chars "room_1-20260101_050632.txt", chars "room_1-20260101_060000.txt"]) ∧
    markProcessed (markProcessed { processed := [], ledger := [] }
        (chars "room_1-20260101_050632.txt"))
      (chars "room_1-20260101_050632.txt") =
      markProcessed { processed := [], ledger := [] } (chars "room_1-20260101_050632.txt") :=
  ⟨(c7_tracker_processed { processed := [], ledger := [] }
      (chars "room_1-20260101_050632.txt")).1 _ _,
   (c7_tracker_processed { processed := [], ledger := [] }
      (chars "room_1-20260101_050632.txt")).2.1⟩

/-! ## Claim C8 -/

theorem dictGet_markRead (uid : List Char) :
    ∀ l : List (List Char × ParsedMessage),
      dictGet uid (markRead uid l) =
        (dictGet uid l).map (fun v => { v with is_read := true }) := by
  intro l
  induction l with
  | nil => simp [markRead, dictGet]
  | cons kv rest ih =>
      obtain ⟨k, v⟩ := kv
      by_cases h : k = uid
      · simp [markRead, dictGet, h]
      · simp [markRead, dictGet, h, ih]

theorem markRead_eq_of_read (uid : List Char) (m : ParsedMessage)
    (hr : m.is_read = true) :
    ∀ l : List (List Char × ParsedMessage),
      dictGet uid l = some m → markRead uid l = l := by
  intro l
  induction l with
  | nil => intro h; simp [dictGet] at h
  | cons kv rest ih =>
      obtain ⟨k, v⟩ := kv
      intro h
      by_cases hk : k = uid
      · simp only [dictGet, if_pos hk] at h
        have hv : v = m := by injection h
        have hvr : v.is_read = true := by rw [hv]; exact hr
        have hupd : ({ v with is_read := true } : ParsedMessage) = v := by
          obtain ⟨ts, ty, un, co, te, tx, wt, ui, ir⟩ := v
          simp_all
        simp [markRead, hk, hupd]
      · simp only [dictGet, if_neg hk] at h
        simp [markRead, hk, ih h]

/-- C8: manual play of a known message enqueues it with the mark-read flag
set, whatever the autoplay state is (`playMessage` never reads it); when the
consumer plays the manual entry (here: manual play into an idle queue,
followed by one consumer cycle) the message's read flag ends up `true`; and
for an already-read message playback is still triggered while its stored
state — in particular the read flag — is left unchanged. -/
theorem c8_manual_play (s : WState) (uid : List Char) (m : ParsedMessage)
    (hm : dictGet uid s.tts_messages = some m) :
    (playMessage uid s).tts_queue = s.tts_queue ++ [(uid, true)] ∧
    (s.tts_queue = [] →
      dictGet uid (consumeOne (playMessage uid s)).tts_messages =
        some { m with is_read := true }) ∧
    (m.is_read = true → s.tts_queue = [] →
      (consumeOne (playMessage uid s)).tts_messages = s.tts_messages) := by
  have hq : (playMessage uid s).tts_queue = s.tts_queue ++ [(uid, true)] := by
    unfold playMessage
    rw [hm]
  have hmsgs : (playMessage uid s).tts_messages = s.tts_messages := by
    unfold playMessage
    rw [hm]
  refine ⟨hq, ?_, ?_⟩
  · intro hempty
    have hq2 : (playMessage uid s).tts_queue = [(uid, true)] := by
      rw [hq, hempty]; rfl
    have hstep : consumeOne (playMessage uid s) =
        { playMessage uid s with
          tts_queue := []
          tts_messages := markRead uid (playMessage uid s).tts_messages
          tts_playing := none } := by
      unfold consumeOne
      rw [hq2]
      rfl
    rw [hstep]
    show dictGet uid (markRead uid (playMessage uid s).tts_messages) = _
    rw [hmsgs, dictGet_markRead, hm]
    rfl
  · intro hr hempty
    have hq2 : (playMessage uid s).tts_queue = [(uid, true)] := by
      rw [hq, hempty]; rfl
    have hstep : consumeOne (playMessage uid s) =
        { playMessage uid s with
          tts_queue := []
          tts_messages := markRead uid (playMessage uid s).tts_messages
          tts_playing := none } := by
      unfold consumeOne
      rw [hq2]
      rfl
    rw [hstep]
    show markRead uid (playMessage uid s).tts_messages = _
    rw [hmsgs, markRead_eq_of_read uid m hr s.tts_messages hm]

theorem toggleAutoplay_on_eq (s : WState) (m : ParsedMessage) (tl : List ParsedMessage)
    (hq : s.tts_queue = [])
    (hsort : sortByTimestamp (unreadMessages { s with tts_autoplay := true }) = m :: tl) :
    toggleAutoplay true s = { s with tts_autoplay := true, tts_queue := [(m.unique_id, true)] } := by
  simp only [toggleAutoplay, if_true]
  rw [hsort]
  have hq1 : ({ s with tts_autoplay := true } : WState).tts_queue = [] := hq
  rw [hq1]

/-- C5: toggling autoplay off empties the TTS queue without touching any
message (in particular no read flag changes), and toggling it back on
enqueues exactly one entry — an unread message whose timestamp is minimal
among the unread backlog — rather than the whole backlog. -/
theorem c5_autoplay_toggle (s : WState) (hne : unreadMessages s ≠ []) :
    (toggleAutoplay false s).tts_queue = [] ∧
    (toggleAutoplay false s).tts_messages = s.tts_messages ∧
    ∃ m, m ∈ unreadMessages s ∧ m.is_read = false ∧
      (toggleAutoplay true (toggleAutoplay false s)).tts_queue = [(m.unique_id, true)] ∧
      ∀ m' ∈ unreadMessages s, dtKey m.timestamp ≤ dtKey m'.timestamp := by
  have hoff_q : (toggleAutoplay false s).tts_queue = [] := by
    simp [toggleAutoplay]
  have hoff_m : (toggleAutoplay false s).tts_messages = s.tts_messages := by
    simp [toggleAutoplay]
  refine ⟨hoff_q, hoff_m, ?_⟩
  have hunread0 : unreadMessages (toggleAutoplay false s) = unreadMessages s := by
    unfold unreadMessages
    rw [hoff_m]
  have hunread1 :
      unreadMessages { toggleAutoplay false s with tts_autoplay := true } = unreadMessages s := by
    unfold unreadMessages at hunread0 ⊢
    exact hunread0
  haveI htot : IsTotal ParsedMessage
      (fun a b => dtKey a.timestamp ≤ dtKey b.timestamp) :=
    ⟨fun a b => Nat.le_total _ _⟩
  haveI htrans : IsTrans ParsedMessage
      (fun a b => dtKey a.timestamp ≤ dtKey b.timestamp) :=
    ⟨fun _ _ _ hab hbc => Nat.le_trans hab hbc⟩
  have hperm :=
    List.perm_insertionSort (fun a b : ParsedMessage => dtKey a.timestamp ≤ dtKey b.timestamp)
      (unreadMessages { toggleAutoplay false s with tts_autoplay := true })
  have hsorted :=
    List.sorted_insertionSort (fun a b : ParsedMessage => dtKey a.timestamp ≤ dtKey b.timestamp)
      (unreadMessages { toggleAutoplay false s with tts_autoplay := true })
  obtain ⟨m, tl, hcons⟩ :
      ∃ m tl, sortByTimestamp
        (unreadMessages { toggleAutoplay false s with tts_autoplay := true }) = m :: tl := by
    cases hsc : sortByTimestamp
        (unreadMessages { toggleAutoplay false s with tts_autoplay := true }) with
    | nil =>
        exfalso
        apply hne
        rw [← hunread1]
        have h2 := hperm.symm
        rw [sortByTimestamp] at hsc
        rw [hsc] at h2
        exact h2.eq_nil
    | cons m tl => exact ⟨m, tl, rfl⟩
  have hmem_sorted : ∀ x ∈ m :: tl, x ∈ unreadMessages s := by
    intro x hx
    rw [← hunread1]
    apply hperm.mem_iff.mp
    rw [sortByTimestamp] at hcons
    rw [hcons]
    exact hx
  have hmin : ∀ m' ∈ unreadMessages s, dtKey m.timestamp ≤ dtKey m'.timestamp := by
    intro m' hm'
    have hx : m' ∈ m :: tl := by
      rw [← hunread1] at hm'
      have := hperm.mem_iff.mpr hm'
      rw [sortByTimestamp] at hcons
      rw [hcons] at this
      exact this
    rcases List.mem_cons.mp hx with rfl | hx2
    · exact Nat.le_refl _
    · rw [sortByTimestamp] at hcons
      rw [hcons] at hsorted
      exact (List.sorted_cons.mp hsorted).1 m' hx2
  have hmemu : m ∈ unreadMessages s := hmem_sorted m (List.mem_cons_self m tl)
  have hmr : m.is_read = false := by
    have h2 : m ∈ (s.tts_messages.map Prod.snd).filter (fun x => !x.is_read) := hmemu
    have h3 := (List.mem_filter.mp h2).2
    simpa using h3
  refine ⟨m, hmemu, hmr, ?_, hmin⟩
  rw [toggleAutoplay_on_eq (toggleAutoplay false s) m tl hoff_q hcons]

theorem c5_autoplay_toggle_witness :
    (toggleAutoplay false toggleFixture).tts_queue = [] ∧
    (toggleAutoplay false toggleFixture).tts_messages = toggleFixture.tts_messages ∧
    ∃ m, m ∈ unreadMessages toggleFixture ∧ m.is_read = false ∧
      (toggleAutoplay true (toggleAutoplay false toggleFixture)).tts_queue =
        [(m.unique_id, true)] ∧
      ∀ m' ∈ unreadMessages toggleFixture, dtKey m.timestamp ≤ dtKey m'.timestamp :=
  c5_autoplay_toggle toggleFixture (by decide)

/-! ## Claim C4 -/

/-- C4: with the tailer mid-tail on file `A` at the current offset and a
newer matching file `B` present, one watch-loop iteration finishes `A` from
that offset (it does not re-open from 0), marks `A` processed, switches the
tail to `B` at offset 0 and reads it; the delivered trace grows by exactly
`A`'s remainder followed by `B`'s content, so if everything delivered before
was exactly the already-tailed prefix of `A`, the total delivered trace is
the concatenation of the two files in creation order — no line lost, none
delivered twice. -/
theorem c4_rotation_no_loss (pat A B : List Char) (la lb : List (List Char))
    (st : WatchState)
    (hApat : pat.isPrefixOf A = true) (hAtxt : (chars ".txt").isSuffixOf A = true)
    (hBpat : pat.isPrefixOf B = true) (hBtxt : (chars ".txt").isSuffixOf B = true)
    (hAproc : A ∉ st.tracker.processed) (hBproc : B ∉ st.tracker.processed)
    (hAB : strLe A B = true) (hABne : A ≠ B) (htail : st.currentTail = some A) :
    (watchIter [(A, la), (B, lb)] pat st).delivered =
      st.delivered ++ la.drop st.lastOffset ++ lb ∧
    (watchIter [(A, la), (B, lb)] pat st).currentTail = some B ∧
    (watchIter [(A, la), (B, lb)] pat st).lastOffset = lb.length ∧
    A ∈ (watchIter [(A, la), (B, lb)] pat st).tracker.processed ∧
    (st.delivered = la.take st.lastOffset →
      (watchIter [(A, la), (B, lb)] pat st).delivered = la ++ lb) := by
  have hAc : st.tracker.processed.contains A = false := by simp [hAproc]
  have hBc : st.tracker.processed.contains B = false := by simp [hBproc]
  have htargets : getTargetFiles st.tracker pat (fsNames [(A, la), (B, lb)]) = [A, B] := by
    unfold getTargetFiles fsNames isProcessed
    simp [hApat, hAtxt, hBpat, hBtxt, hAproc, hBproc,
      List.insertionSort, List.orderedInsert, hAB]
  have hstep : watchIter [(A, la), (B, lb)] pat st =
      switchAndTail [(A, la), (B, lb)] (processHistoricals [(A, la), (B, lb)] st [A]) B := by
    unfold watchIter
    rw [htargets]
    rfl
  have hhist : processHistoricals [(A, la), (B, lb)] st [A] =
      finishCurrent [(A, la), (B, lb)] st A := by
    unfold processHistoricals
    rw [List.foldl_cons, List.foldl_nil, if_pos htail]
  have hfsA : fsContent [(A, la), (B, lb)] A = la := by
    simp [fsContent]
  have hfsB : fsContent [(A, la), (B, lb)] B = lb := by
    simp [fsContent, List.find?, hABne]
  have hcur1 : (finishCurrent [(A, la), (B, lb)] st A).currentTail = none := rfl
  have hsw : switchAndTail [(A, la), (B, lb)] (finishCurrent [(A, la), (B, lb)] st A) B =
      { finishCurrent [(A, la), (B, lb)] st A with
        currentTail := some B
        delivered := (finishCurrent [(A, la), (B, lb)] st A).delivered ++ lb
        lastOffset := if lb = [] then 0 else lb.length } := by
    unfold switchAndTail
    rw [hcur1]
    simp [hfsB]
  have hFd : (finishCurrent [(A, la), (B, lb)] st A).delivered =
      st.delivered ++ la.drop st.lastOffset := by
    unfold finishCurrent
    rw [hfsA]
  have hFt : (finishCurrent [(A, la), (B, lb)] st A).tracker = markProcessed st.tracker A := rfl
  rw [hstep, hhist, hsw]
  refine ⟨?_, rfl, ?_, ?_, ?_⟩
  · show (finishCurrent [(A, la), (B, lb)] st A).delivered ++ lb = _
    rw [hFd, List.append_assoc]
  · show (if lb = [] then 0 else lb.length) = lb.length
    cases lb <;> simp
  · show A ∈ (finishCurrent [(A, la), (B, lb)] st A).tracker.processed
    rw [hFt]
    exact markProcessed_contains_self st.tracker A
  · intro hpre
    show (finishCurrent [(A, la), (B, lb)] st A).delivered ++ lb = _
    rw [hFd, hpre, List.append_assoc, ← List.append_assoc, List.take_append_drop]

theorem c4_rotation_no_loss_witness :
    (watchIter
        [(chars "room_1-20260101_a.txt", [chars "l1", chars "l2"]),
         (chars "room_1-20260101_b.txt", [chars "l3"])]
        (chars "room_1-20260101_")
        { tracker := { processed := [], ledger := [] }
          currentTail := some (chars "room_1-20260101_a.txt")
          lastOffset := 1
          delivered := [chars "l1"] }).delivered =
      [chars "l1"] ++ [chars "l1", chars "l2"].drop 1 ++ [chars "l3"] ∧
    (watchIter
        [(chars "room_1-20260101_a.txt", [chars "l1", chars "l2"]),
         (chars "room_1-20260101_b.txt", [chars "l3"])]
        (chars "room_1-20260101_")
        { tracker := { processed := [], ledger := [] }
          currentTail := some (chars "room_1-20260101_a.txt")
          lastOffset := 1
          delivered := [chars "l1"] }).delivered =
      [chars "l1", chars "l2"] ++ [chars "l3"] := by
  have h := c4_rotation_no_loss (chars "room_1-20260101_")
    (chars "room_1-20260101_a.txt") (chars "room_1-20260101_b.txt")
    [chars "l1", chars "l2"] [chars "l3"]
    { tracker := { processed := [], ledger := [] }
      currentTail := some (chars "room_1-20260101_a.txt")
      lastOffset := 1
      delivered := [chars "l1"] }
    (by decide) (by decide) (by decide) (by decide) (by decide) (by decide)
    (by decide) (by decide) rfl
  exact ⟨h.1, h.2.2.2.2 (by decide)⟩

/-! ## String-search lemmas used by the parser claims -/

theorem findAux_append (sub : List Char) :
    ∀ (a s : List Char) (i : Nat), sub.isPrefixOf s = true →
      (∀ j, j < a.length → ¬ (sub.isPrefixOf ((a ++ s).drop j) = true)) →
      findAux sub (a ++ s) i = some (i + a.length) := by
  intro a
  induction a with
  | nil =>
      intro s i hp _
      cases s with
      | nil =>
          have : sub = [] := by
            rw [List.isPrefixOf_iff_prefix] at hp
            exact List.prefix_nil.mp hp
          simp [findAux, this]
      | cons c rest =>
          simp only [List.nil_append, findAux, if_pos hp, List.length_nil, Nat.add_zero]
  | cons x a' ih =>
      intro s i hp hno
      have h0 : ¬ (sub.isPrefixOf (x :: (a' ++ s)) = true) := by
        have := hno 0 (by simp)
        simpa using this
      have hshift : ∀ j, j < a'.length → ¬ (sub.isPrefixOf ((a' ++ s).drop j) = true) := by
        intro j hj
        have := hno (j + 1) (by simp; omega)
        simpa using this
      rw [List.cons_append]
      have hstep : findAux sub (x :: (a' ++ s)) i =
          if sub.isPrefixOf (x :: (a' ++ s)) = true then some i
          else findAux sub (a' ++ s) (i + 1) := rfl
      rw [hstep, if_neg h0, ih s (i + 1) hp hshift]
      congr 1
      simp only [List.length_cons]
      omega

theorem noOcc_head (c : Char) (stl a s : List Char) (hna : c ∉ a) :
    ∀ j, j < a.length → ¬ ((c :: stl).isPrefixOf ((a ++ s).drop j) = true) := by
  intro j hj hpre
  rw [List.isPrefixOf_iff_prefix] at hpre
  obtain ⟨t, ht⟩ := hpre
  have hh : ((a ++ s).drop j).head? = some c := by
    rw [← ht]; rfl
  rw [List.head?_drop, List.getElem?_append_left hj] at hh
  exact hna (List.getElem?_mem hh)

theorem noOcc_second (c1 c2 : Char) (stl a s : List Char) (hna : c2 ∉ a)
    (hs : s.head? ≠ some c2) :
    ∀ j, j < a.length → ¬ ((c1 :: c2 :: stl).isPrefixOf ((a ++ s).drop j) = true) := by
  intro j hj hpre
  rw [List.isPrefixOf_iff_prefix] at hpre
  obtain ⟨t, ht⟩ := hpre
  have hh : (a ++ s)[j + 1]? = some c2 := by
    have h2 : ((a ++ s).drop j)[1]? = some c2 := by
      rw [← ht]
      simp
    rw [List.getElem?_drop] at h2
    exact h2
  rcases Nat.lt_or_ge (j + 1) a.length with hlt | hge
  · rw [List.getElem?_append_left hlt] at hh
    exact hna (List.getElem?_mem hh)
  · rw [List.getElem?_append_right hge] at hh
    have hj1 : j + 1 - a.length = 0 := by omega
    rw [hj1] at hh
    apply hs
    rw [← hh]
    cases s <;> simp

theorem pyFind_eq (sub a s : List Char) (hp : sub.isPrefixOf s = true)
    (hno : ∀ j, j < a.length → ¬ (sub.isPrefixOf ((a ++ s).drop j) = true)) :
    pyFind (a ++ s) sub = (a.length : Int) := by
  unfold pyFind
  rw [findAux_append sub a s 0 hp hno]
  simp

theorem pyFindFrom_eq (sub pre a s : List Char) (hp : sub.isPrefixOf s = true)
    (hno : ∀ j, j < a.length → ¬ (sub.isPrefixOf ((a ++ s).drop j) = true)) :
    pyFindFrom (pre ++ (a ++ s)) sub (pre.length : Int) =
      ((pre.length + a.length : Nat) : Int) := by
  unfold pyFindFrom
  have hst : (if (pre.length : Int) < 0 then (((pre ++ (a ++ s)).length : Int) + pre.length).toNat
      else min (pre.length : Int).toNat (pre ++ (a ++ s)).length) = pre.length := by
    rw [if_neg (by omega)]
    simp
  rw [hst]
  simp only [List.drop_left]
  rw [findAux_append sub a s 0 hp hno]
  simp

theorem sliceIdx_of_le (len n : Nat) (h : n ≤ len) : sliceIdx len (n : Int) = n := by
  unfold sliceIdx
  rw [if_neg (by omega)]
  simp [h]

theorem pySliceTo_append (a s : List Char) : pySliceTo (a ++ s) (a.length : Int) = a := by
  unfold pySliceTo
  rw [sliceIdx_of_le _ _ (by simp)]
  exact List.take_left a s

theorem pySliceFrom_append (a s : List Char) : pySliceFrom (a ++ s) (a.length : Int) = s := by
  unfold pySliceFrom
  rw [sliceIdx_of_le _ _ (by simp)]
  exact List.drop_left a s

theorem pySlice_seg (pre mid rest : List Char) :
    pySlice (pre ++ mid ++ rest) (pre.length : Int)
      ((pre.length + mid.length : Nat) : Int) = mid := by
  unfold pySlice
  rw [sliceIdx_of_le _ _ (by simp), sliceIdx_of_le _ _ (by simp [List.length_append])]
  rw [List.append_assoc, List.take_append_eq_append_take]
  simp [List.take_append_eq_append_take]

theorem pyStrip_eq_self (s : List Char)
    (h1 : ∀ c, s.head? = some c → isPyWs c = false)
    (h2 : ∀ c, s.getLast? = some c → isPyWs c = false) :
    pyStrip s = s := by
  unfold pyStrip
  have hl : s.dropWhile isPyWs = s := by
    cases s with
    | nil => rfl
    | cons c t =>
        rw [List.dropWhile_cons, if_neg]
        simp [h1 c rfl]
  rw [hl]
  have hr : s.reverse.dropWhile isPyWs = s.reverse := by
    cases hrev : s.reverse with
    | nil => rfl
    | cons c t =>
        rw [List.dropWhile_cons, if_neg]
        have hlast : s.getLast? = some c := by
          rw [← List.head?_reverse, hrev]
          rfl
        simp [h2 c hlast]
  rw [hr, List.reverse_reverse]

theorem pyStrptime_shape (ts : List Char) (T : DateTime) (h : pyStrptime ts = some T) :
    ∃ c rest, ts = c :: rest ∧ c.isDigit = true := by
  match ts with
  | [] => simp [pyStrptime, parseYear] at h
  | [c1] => simp [pyStrptime, parseYear] at h
  | [c1, c2] => simp [pyStrptime, parseYear] at h
  | [c1, c2, c3] => simp [pyStrptime, parseYear] at h
  | c1 :: c2 :: c3 :: c4 :: rest =>
      refine ⟨c1, c2 :: c3 :: c4 :: rest, rfl, ?_⟩
      by_cases hd : c1.isDigit = true ∧ c2.isDigit = true ∧ c3.isDigit = true ∧ c4.isDigit = true
      · exact hd.1
      · exfalso
        have hy : parseYear (c1 :: c2 :: c3 :: c4 :: rest) = none := by
          have heq : parseYear (c1 :: c2 :: c3 :: c4 :: rest) =
              if c1.isDigit = true ∧ c2.isDigit = true ∧ c3.isDigit = true ∧ c4.isDigit = true
              then some (digitVal c1 * 1000 + digitVal c2 * 100 + digitVal c3 * 10 + digitVal c4,
                rest)
              else none := rfl
          rw [heq, if_neg hd]
        unfold pyStrptime at h
        rw [hy] at h
        exact Option.noConfusion h

theorem stripBOM_of_digit (c : Char) (rest : List Char) (hd : c.isDigit = true) :
    stripBOM (c :: rest) = c :: rest := by
  unfold stripBOM
  rw [List.dropWhile_cons, if_neg]
  intro hc
  have : c = Char.ofNat 0xFEFF := by simpa using hc
  rw [this] at hd
  exact absurd hd (by decide)

theorem c8_manual_play_witness :
    (playMessage (chars "i") { tts_messages := [(chars "i", superchat7)] }).tts_queue =
      [] ++ [(chars "i", true)] ∧
    dictGet (chars "i")
      (consumeOne (playMessage (chars "i")
        { tts_messages := [(chars "i", superchat7)] })).tts_messages =
      some { superchat7 with is_read := true } := by
  have h := c8_manual_play { tts_messages := [(chars "i", superchat7)] }
    (chars "i") superchat7 (by decide)
  exact ⟨h.1, h.2.1 rfl⟩

/-! ## Claim C3 -/

/-- C3 counterexample: this `[paid_gift]` line nowhere contains the gift
sub-grammar's required delimiter ` 赠送了 `, yet `parse_line` returns an
event rather than `None` — `str.find`'s `-1` flows into Python slicing and
index arithmetic unchecked, and the remaining positional extractions happen
to succeed. -/
theorem c3_counterexample :
    pyFind (chars "2024-01-01 12:00:00 [paid_gift] abcd x 5，总价 3 元")
      (chars " 赠送了 ") = -1 ∧
    (parseLine (chars "2024-01-01 12:00:00 [paid_gift] abcd x 5，总价 3 元")).isSome
      = true := by
  exact ⟨by decide, by decide⟩

/-- C3 amended: `parse_line` never raises — it is total, every failure path
yielding `none` — and a line missing a top-level delimiter (no ` [`
separator, or no `]` after it) or carrying an unrecognized kind tag yields
`none` (the parser is pure, so there is no side effect). The original
claim's stronger clause — that a line missing a required delimiter of its
kind's *sub-grammar* also yields `None` — is refuted by
`c3_counterexample`. -/
theorem c3_malformed_top_level (line : List Char) :
    (pyFind line (chars " [") = -1 → parseLine line = none) ∧
    (pyFind line (chars " [") ≠ -1 →
      pyFindFrom line (chars "]") (pyFind line (chars " [") + 2) = -1 →
      parseLine line = none) ∧
    (pyFind line (chars " [") ≠ -1 →
      messageTypeOf (pySlice line (pyFind line (chars " [") + 2)
        (pyFindFrom line (chars "]") (pyFind line (chars " [") + 2))) = none →
      parseLine line = none) := by
  refine ⟨?_, ?_, ?_⟩
  · intro h
    simp only [parseLine]
    rw [h]
    simp
  · intro h1 h2
    simp only [parseLine]
    rw [if_neg h1]
    cases hst : pyStrptime (stripBOM (pySliceTo line (pyFind line (chars " [")))) with
    | none => rfl
    | some T => simp [h2]
  · intro h1 h2
    simp only [parseLine]
    rw [if_neg h1]
    cases hst : pyStrptime (stripBOM (pySliceTo line (pyFind line (chars " [")))) with
    | none => rfl
    | some T =>
        by_cases hte : pyFindFrom line (chars "]") (pyFind line (chars " [") + 2) = -1
        · simp [hte]
        · simp [hte, h2]

theorem c3_malformed_top_level_witness :
    parseLine (chars "a line with no bracketed tag") = none ∧
    parseLine (chars "2024-01-01 12:00:00 [bogus] hello") = none :=
  ⟨(c3_malformed_top_level (chars "a line with no bracketed tag")).1 (by decide),
   (c3_malformed_top_level (chars "2024-01-01 12:00:00 [bogus] hello")).2.2
     (by decide) (by decide)⟩

/-! ## Claim C6 -/

theorem parseDm_unique_id (t : DateTime) (c : List Char) :
    (parseDm t c).unique_id =
      isoFormat (parseDm t c).timestamp ++ chars "_" ++ (parseDm t c).username ++
        idSuffix (parseDm t c) := by
  simp [parseDm, idSuffix]

theorem parseGift_unique_id (t : DateTime) (c : List Char) (mt : MessageType)
    (cur : List Char) (m : ParsedMessage) (h : parseGift t c mt cur = some m)
    (hmt : mt = .FREE_GIFT ∨ mt = .PAID_GIFT) :
    m.unique_id = isoFormat m.timestamp ++ chars "_" ++ m.username ++ idSuffix m := by
  simp only [parseGift] at h
  split at h
  · exact Option.noConfusion h
  · split at h
    · exact Option.noConfusion h
    · injection h with h2
      subst h2
      rcases hmt with rfl | rfl <;> simp [idSuffix]

theorem parseGuard_unique_id (t : DateTime) (c : List Char) (m : ParsedMessage)
    (h : parseGuard t c = some m) :
    m.unique_id = isoFormat m.timestamp ++ chars "_" ++ m.username ++ idSuffix m := by
  simp only [parseGuard] at h
  split at h
  · exact Option.noConfusion h
  · injection h with h2
    subst h2
    simp [idSuffix, guardTier]

theorem parseSuperchat_unique_id (t : DateTime) (c : List Char) (m : ParsedMessage)
    (h : parseSuperchat t c = some m) :
    m.unique_id = isoFormat m.timestamp ++ chars "_" ++ m.username ++ idSuffix m := by
  simp only [parseSuperchat] at h
  split at h
  · exact Option.noConfusion h
  · injection h with h2
    subst h2
    simp [idSuffix]

theorem parseLine_unique_id_shape (l : List Char) (m : ParsedMessage)
    (h : parseLine l = some m) :
    m.unique_id = isoFormat m.timestamp ++ chars "_" ++ m.username ++ idSuffix m := by
  simp only [parseLine] at h
  split at h
  · exact Option.noConfusion h
  · split at h
    · exact Option.noConfusion h
    · split at h
      · exact Option.noConfusion h
      · split at h
        · exact Option.noConfusion h
        · split at h
          · injection h with h2
            subst h2
            exact parseDm_unique_id _ _
          · exact parseGift_unique_id _ _ _ _ _ h (Or.inl rfl)
          · exact parseGift_unique_id _ _ _ _ _ h (Or.inr rfl)
          · exact parseGuard_unique_id _ _ _ h
          · exact parseSuperchat_unique_id _ _ _ h

/-- C6 counterexample: two guard lines with the same timestamp, username and
kind (`guard`) but different guard tiers parse to events with different ids
— the id embeds the tier, so it is not a function of
`(timestamp, username, kind)` alone. -/
theorem c6_counterexample :
    (parseLine (chars "2024-01-01 12:00:00 [guard] alice 购买了 1个月 舰长，总价 138 元")).isSome
      = true ∧
    (parseLine (chars "2024-01-01 12:00:00 [guard] alice 购买了 1个月 提督，总价 1998 元")).isSome
      = true ∧
    (parseLine (chars "2024-01-01 12:00:00 [guard] alice 购买了 1个月 舰长，总价 138 元")).map
        ParsedMessage.timestamp =
      (parseLine (chars "2024-01-01 12:00:00 [guard] alice 购买了 1个月 提督，总价 1998 元")).map
        ParsedMessage.timestamp ∧
    (parseLine (chars "2024-01-01 12:00:00 [guard] alice 购买了 1个月 舰长，总价 138 元")).map
        ParsedMessage.username =
      (parseLine (chars "2024-01-01 12:00:00 [guard] alice 购买了 1个月 提督，总价 1998 元")).map
        ParsedMessage.username ∧
    (parseLine (chars "2024-01-01 12:00:00 [guard] alice 购买了 1个月 舰长，总价 138 元")).map
        ParsedMessage.type =
      (parseLine (chars "2024-01-01 12:00:00 [guard] alice 购买了 1个月 提督，总价 1998 元")).map
        ParsedMessage.type ∧
    (parseLine (chars "2024-01-01 12:00:00 [guard] alice 购买了 1个月 舰长，总价 138 元")).map
        ParsedMessage.unique_id ≠
      (parseLine (chars "2024-01-01 12:00:00 [guard] alice 购买了 1个月 提督，总价 1998 元")).map
        ParsedMessage.unique_id := by
  exact ⟨by decide, by decide, by decide, by decide, by decide, by decide⟩

/-- C6 amended: every parsed event's id is
`isoformat(timestamp) + "_" + username + <kind suffix>`, where the suffix is
determined by the kind alone for `dm`, `free_gift`, `paid_gift` and
`superchat` — so for those kinds two parses agreeing on
`(timestamp, username, kind)` share the id — while for `guard` events the
suffix additionally embeds the guard tier, so agreement on the tier is also
required (`c6_counterexample` shows it is not redundant). -/
theorem c6_id_determined (l1 l2 : List Char) (m1 m2 : ParsedMessage)
    (h1 : parseLine l1 = some m1) (h2 : parseLine l2 = some m2)
    (hts : m1.timestamp = m2.timestamp) (hu : m1.username = m2.username)
    (hty : m1.type = m2.type) :
    (m1.type ≠ .GUARD → m1.unique_id = m2.unique_id) ∧
    (guardTier m1.content = guardTier m2.content → m1.unique_id = m2.unique_id) := by
  have s1 := parseLine_unique_id_shape l1 m1 h1
  have s2 := parseLine_unique_id_shape l2 m2 h2
  rw [s1, s2, hts, hu]
  constructor
  · intro hng
    suffices hs : idSuffix m1 = idSuffix m2 by rw [hs]
    unfold idSuffix
    rw [hty]
    cases hc : m2.type
    case GUARD => exact absurd (hty.trans hc) hng
    all_goals rfl
  · intro htier
    suffices hs : idSuffix m1 = idSuffix m2 by rw [hs]
    unfold idSuffix
    rw [hty]
    cases hc : m2.type
    case GUARD => rw [htier]
    all_goals rfl

/-! ## Claim C9 -/

theorem isPrefixOf_append_self (a b : List Char) : a.isPrefixOf (a ++ b) = true := by
  rw [List.isPrefixOf_iff_prefix]
  exact List.prefix_append a b

theorem pyFind_clean_head (c : Char) (stl a s : List Char)
    (hp : (c :: stl).isPrefixOf s = true) (hna : c ∉ a) :
    pyFind (a ++ s) (c :: stl) = (a.length : Int) :=
  pyFind_eq _ _ _ hp (noOcc_head c stl a s hna)

theorem pySlice_seg2 (x mid y : List Char) (a b : Int)
    (ha : a = (x.length : Int)) (hb : b = ((x.length + mid.length : Nat) : Int)) :
    pySlice (x ++ (mid ++ y)) a b = mid := by
  subst ha hb
  have h := pySlice_seg x mid y
  rw [List.append_assoc] at h
  exact h

/-- The core of C9: on a well-formed gift content
`<user> 赠送了 <gift> x <qty>，总价 <value> <currency>`, `_parse_gift`
recovers the username, gift name, quantity and value exactly as embedded. -/
theorem parseGift_wf (t : DateTime) (u g q v : List Char) (ch : Char) (ct : List Char)
    (mt : MessageType) (qn : Int) (xv : ℚ)
    (hu : cleanTok u) (hg : cleanTok g)
    (hq2 : ∀ c ∈ q, c.isDigit = true)
    (hv2 : ∀ c ∈ v, c.isDigit = true ∨ c = '.')
    (hqn : pyInt q = some qn) (hxv : pyFloat v = some xv)
    (hch1 : ch ≠ ' ') (hch2 : ch.isDigit = false) (hch3 : ch ≠ '.')
    (hchu : ch ∉ u) (hchg : ch ∉ g)
    (hchl1 : ch ∉ chars " 赠送了 ") (hchl2 : ch ∉ chars " x ")
    (hchl3 : ch ∉ chars "，总价 ") :
    parseGift t
        (u ++ chars " 赠送了 " ++ g ++ chars " x " ++ q ++ chars "，总价 " ++ v ++
          (' ' :: ch :: ct))
        mt (ch :: ct) =
      some { timestamp := t, type := mt, username := u,
             content := .gift g qn xv (ch :: ct),
             unique_id := isoFormat t ++ chars "_" ++ u ++
               (if mt = .FREE_GIFT then chars "_free_gift" else chars "_paid_gift") } := by
  have hD1c : chars " 赠送了 " = ' ' :: chars "赠送了 " := by decide
  have hD2c : chars " x " = ' ' :: chars "x " := by decide
  have hCMc : chars "，" = '，' :: ([] : List Char) := by decide
  have hD34c : chars "，总价 " = '，' :: chars "总价 " := by decide
  have hZc : chars "总价 " = '总' :: chars "价 " := by decide
  have hl1 : (chars " 赠送了 ").length = 5 := by decide
  have hl2 : (chars " x ").length = 3 := by decide
  have hl34 : (chars "，总价 ").length = 4 := by decide
  have hsp_u : ' ' ∉ u := fun hm => absurd (hu.2 ' ' hm).1 (by decide)
  have hsp_g : ' ' ∉ g := fun hm => absurd (hg.2 ' ' hm).1 (by decide)
  have hcm_q : '，' ∉ q := fun hm => absurd (hq2 _ hm) (by decide)
  have hz_u : '总' ∉ u := fun hm => (hu.2 '总' hm).2.2.2.1 rfl
  have hz_g : '总' ∉ g := fun hm => (hg.2 '总' hm).2.2.2.1 rfl
  have hz_q : '总' ∉ q := fun hm => absurd (hq2 _ hm) (by decide)
  have hch_q : ch ∉ q := by
    intro hm
    have h := hq2 ch hm
    rw [hch2] at h
    exact Bool.false_ne_true h
  have hch_v : ch ∉ v := by
    intro hm
    rcases hv2 ch hm with h | h
    · rw [hch2] at h
      exact Bool.false_ne_true h
    · exact hch3 h
  simp only [parseGift]
  set C := u ++ chars " 赠送了 " ++ g ++ chars " x " ++ q ++ chars "，总价 " ++ v ++
    (' ' :: ch :: ct) with hC
  have hCr : C = u ++ (chars " 赠送了 " ++ (g ++ (chars " x " ++ (q ++
      (chars "，总价 " ++ (v ++ (' ' :: ch :: ct))))))) := by
    rw [hC]
    simp only [List.append_assoc]
  have e1 : pyFind C (chars " 赠送了 ") = (u.length : Int) := by
    rw [hCr, hD1c]
    exact pyFind_clean_head ' ' (chars "赠送了 ") u _ (isPrefixOf_append_self _ _) hsp_u
  have hus : pySliceTo C (u.length : Int) = u := by
    rw [hCr]
    exact pySliceTo_append u _
  have hsplit2 : C = (u ++ chars " 赠送了 ") ++ (g ++ ((' ' :: chars "x ") ++ (q ++
      (chars "，总价 " ++ (v ++ (' ' :: ch :: ct)))))) := by
    rw [hC, hD2c]
    simp only [List.append_assoc, List.cons_append]
  have hlen2 : (u ++ chars " 赠送了 ").length = u.length + 5 := by
    rw [List.length_append, hl1]
  have e2 : pyFindFrom C (chars " x ") ((u.length : Int) + 5) =
      ((u.length + 5 + g.length : Nat) : Int) := by
    rw [hD2c, hsplit2]
    rw [show ((u.length : Int) + 5) = (((u ++ chars " 赠送了 ").length : Nat) : Int) by
      rw [hlen2]; push_cast; ring]
    rw [pyFindFrom_eq (' ' :: chars "x ") (u ++ chars " 赠送了 ") g _
      (isPrefixOf_append_self _ _) (noOcc_head ' ' _ g _ hsp_g)]
    rw [hlen2]
  have hgift : pySlice C ((u.length : Int) + 5) ((u.length + 5 + g.length : Nat) : Int)
      = g := by
    rw [hsplit2]
    exact pySlice_seg2 (u ++ chars " 赠送了 ") g _ _ _
      (by rw [hlen2]; push_cast; ring) (by rw [hlen2])
  have hsplit3 : C = ((u ++ chars " 赠送了 ") ++ (g ++ chars " x ")) ++ (q ++
      (('，' :: chars "总价 ") ++ (v ++ (' ' :: ch :: ct)))) := by
    rw [hC, hD34c]
    simp only [List.append_assoc, List.cons_append]
  have hlen3 : ((u ++ chars " 赠送了 ") ++ (g ++ chars " x ")).length =
      u.length + 5 + g.length + 3 := by
    simp only [List.length_append, hl1, hl2]
    omega
  have e3 : pyFindFrom C (chars "，") (((u.length + 5 + g.length : Nat) : Int) + 3) =
      ((u.length + 5 + g.length + 3 + q.length : Nat) : Int) := by
    rw [hCMc, hsplit3]
    rw [show (((u.length + 5 + g.length : Nat) : Int) + 3) =
        ((((u ++ chars " 赠送了 ") ++ (g ++ chars " x ")).length : Nat) : Int) by
      rw [hlen3]; push_cast; ring]
    have hp : ('，' :: ([] : List Char)).isPrefixOf
        (('，' :: chars "总价 ") ++ (v ++ (' ' :: ch :: ct))) = true := by
      rw [List.isPrefixOf_iff_prefix]
      exact ⟨chars "总价 " ++ (v ++ (' ' :: ch :: ct)), by simp⟩
    rw [pyFindFrom_eq ('，' :: []) ((u ++ chars " 赠送了 ") ++ (g ++ chars " x ")) q _
      hp (noOcc_head '，' _ q _ hcm_q)]
    rw [hlen3]
  have hqsl : pySlice C (((u.length + 5 + g.length : Nat) : Int) + 3)
      ((u.length + 5 + g.length + 3 + q.length : Nat) : Int) = q := by
    rw [hsplit3]
    exact pySlice_seg2 ((u ++ chars " 赠送了 ") ++ (g ++ chars " x ")) q _ _ _
      (by rw [hlen3]; push_cast; ring) (by rw [hlen3])
  have hsplit4 : C = (((u ++ chars " 赠送了 ") ++ (g ++ chars " x ")) ++ (q ++ ['，'])) ++
      (('总' :: chars "价 ") ++ (v ++ (' ' :: ch :: ct))) := by
    rw [hC, hD34c, hZc]
    simp only [List.append_assoc, List.cons_append, List.nil_append]
  have hlen4 : ((((u ++ chars " 赠送了 ") ++ (g ++ chars " x ")) ++ (q ++ ['，'])).length) =
      u.length + 5 + g.length + 3 + q.length + 1 := by
    simp only [List.length_append, hl1, hl2, List.length_cons, List.length_nil]
    omega
  have hz_a4 : '总' ∉ (((u ++ chars " 赠送了 ") ++ (g ++ chars " x ")) ++ (q ++ ['，'])) := by
    simp only [List.mem_append]
    rintro (((h | h) | (h | h)) | (h | h))
    · exact hz_u h
    · exact absurd h (by decide)
    · exact hz_g h
    · exact absurd h (by decide)
    · exact hz_q h
    · exact absurd h (by decide)
  have e4 : pyFind C (chars "总价 ") =
      ((u.length + 5 + g.length + 3 + q.length + 1 : Nat) : Int) := by
    rw [hZc, hsplit4]
    rw [pyFind_clean_head '总' (chars "价 ") _ _ (isPrefixOf_append_self _ _) hz_a4]
    rw [hlen4]
  have hsplit5 : C = (((u ++ chars " 赠送了 ") ++ (g ++ chars " x ")) ++
      (q ++ chars "，总价 ")) ++ (v ++ (' ' :: ch :: ct)) := by
    rw [hC]
    simp only [List.append_assoc]
  have hlen5 : ((((u ++ chars " 赠送了 ") ++ (g ++ chars " x ")) ++
      (q ++ chars "，总价 ")).length) = u.length + 5 + g.length + 3 + q.length + 4 := by
    simp only [List.length_append, hl1, hl2, hl34]
    omega
  have hvsl : pySlice C (((u.length + 5 + g.length + 3 + q.length + 1 : Nat) : Int) + 3)
      ((u.length + 5 + g.length + 3 + q.length + 4 + v.length : Nat) : Int) = v := by
    rw [hsplit5]
    exact pySlice_seg2 _ v _ _ _
      (by rw [hlen5]; push_cast; omega) (by rw [hlen5])
  have hsplit6 : C = ((((u ++ chars " 赠送了 ") ++ (g ++ chars " x ")) ++
      (q ++ chars "，总价 ")) ++ v) ++ (' ' :: ch :: ct) := by
    rw [hC]
    simp only [List.append_assoc]
  have hlen6 : (((((u ++ chars " 赠送了 ") ++ (g ++ chars " x ")) ++
      (q ++ chars "，总价 ")) ++ v).length) =
      u.length + 5 + g.length + 3 + q.length + 4 + v.length := by
    simp only [List.length_append, hl1, hl2, hl34]
    omega
  have hch_a5 : ch ∉ ((((u ++ chars " 赠送了 ") ++ (g ++ chars " x ")) ++
      (q ++ chars "，总价 ")) ++ v) := by
    simp only [List.mem_append]
    rintro ((((h | h) | (h | h)) | (h | h)) | h)
    · exact hchu h
    · exact hchl1 h
    · exact hchg h
    · exact hchl2 h
    · exact hch_q h
    · exact hchl3 h
    · exact hch_v h
  have e5 : pyFind C (' ' :: ch :: ct) =
      ((u.length + 5 + g.length + 3 + q.length + 4 + v.length : Nat) : Int) := by
    rw [hsplit6]
    have hp : (' ' :: ch :: ct).isPrefixOf (' ' :: ch :: ct) = true := by
      rw [List.isPrefixOf_iff_prefix]
    have hs : (' ' :: ch :: ct).head? ≠ some ch := by
      intro he
      apply hch1
      injection he with he2
      exact he2.symm
    rw [pyFind_eq (' ' :: ch :: ct) _ (' ' :: ch :: ct) hp
      (noOcc_second ' ' ch ct _ _ hch_a5 hs)]
    rw [hlen6]
  simp only [e1, hus, e2, hgift, e3, hqsl, e4, e5, hvsl, hqn, hxv]

/-- `parse_line` on a line assembled as `<ts> [<tag>] <content>` with a parseable
timestamp and a known tag dispatches to the kind's sub-routine on the stripped
content. -/
theorem parseLine_reduces (ts tag content : List Char) (T : DateTime) (mt : MessageType)
    (hts : pyStrptime ts = some T) (htag : messageTypeOf tag = some mt)
    (hbr1 : '[' ∉ ts) (hbr2 : ']' ∉ tag) :
    parseLine (ts ++ chars " [" ++ tag ++ chars "] " ++ content) =
      (match mt with
       | .DM => some (parseDm T (pyStrip content))
       | .FREE_GIFT => parseGift T (pyStrip content) .FREE_GIFT (chars "银瓜子")
       | .PAID_GIFT => parseGift T (pyStrip content) .PAID_GIFT (chars "元")
       | .GUARD => parseGuard T (pyStrip content)
       | .SUPERCHAT => parseSuperchat T (pyStrip content)) := by
  have hA : chars " [" = ' ' :: '[' :: ([] : List Char) := by decide
  have hBr : chars "]" = ']' :: ([] : List Char) := by decide
  have hB2 : chars "] " = ']' :: ' ' :: ([] : List Char) := by decide
  have hlA : (chars " [").length = 2 := by decide
  have hlB : (chars "] ").length = 2 := by decide
  simp only [parseLine]
  set L := ts ++ chars " [" ++ tag ++ chars "] " ++ content with hL
  have hLr : L = ts ++ (chars " [" ++ (tag ++ (chars "] " ++ content))) := by
    rw [hL]
    simp only [List.append_assoc]
  have hsplit : L = (ts ++ chars " [") ++ (tag ++ (chars "] " ++ content)) := by
    rw [hL]
    simp only [List.append_assoc]
  have hlen : (ts ++ chars " [").length = ts.length + 2 := by
    rw [List.length_append, hlA]
  have e1 : pyFind L (chars " [") = (ts.length : Int) := by
    rw [hLr, hA]
    apply pyFind_eq
    · exact isPrefixOf_append_self _ _
    · apply noOcc_second ' ' '[' [] ts _ hbr1
      intro h
      exact absurd (Option.some.inj h) (by decide)
  have ht_ne : ¬ ((ts.length : Int) = -1) := by omega
  have hsliceTo : pySliceTo L (ts.length : Int) = ts := by
    rw [hLr]
    exact pySliceTo_append ts _
  obtain ⟨c0, rest0, hshape, hdig⟩ := pyStrptime_shape ts T hts
  have hstrip : stripBOM ts = ts := by
    rw [hshape]
    exact stripBOM_of_digit c0 rest0 hdig
  have e2 : pyFindFrom L (chars "]") ((ts.length : Int) + 2) =
      ((ts.length + 2 + tag.length : Nat) : Int) := by
    rw [hBr, hsplit]
    rw [show ((ts.length : Int) + 2) = (((ts ++ chars " [").length : Nat) : Int) by
      rw [hlen]; push_cast; ring]
    have hp : (']' :: ([] : List Char)).isPrefixOf (chars "] " ++ content) = true := by
      rw [hB2, List.isPrefixOf_iff_prefix]
      exact ⟨' ' :: content, by simp⟩
    rw [pyFindFrom_eq (']' :: []) (ts ++ chars " [") tag (chars "] " ++ content) hp
      (noOcc_head ']' [] tag _ hbr2)]
    rw [hlen]
  have ht_ne2 : ¬ (((ts.length + 2 + tag.length : Nat) : Int) = -1) := by omega
  have hslice_tag : pySlice L ((ts.length : Int) + 2)
      ((ts.length + 2 + tag.length : Nat) : Int) = tag := by
    rw [hsplit]
    exact pySlice_seg2 (ts ++ chars " [") tag _ _ _
      (by rw [hlen]; push_cast; ring) (by rw [hlen])
  have hfrom : pySliceFrom L (((ts.length + 2 + tag.length : Nat) : Int) + 2) = content := by
    have hsplit2 : L = (ts ++ chars " [" ++ tag ++ chars "] ") ++ content := by
      rw [hL]
    rw [hsplit2]
    have hlen2 : (ts ++ chars " [" ++ tag ++ chars "] ").length =
        ts.length + 2 + tag.length + 2 := by
      simp only [List.length_append, hlA, hlB]
    rw [show (((ts.length + 2 + tag.length : Nat) : Int) + 2) =
        (((ts ++ chars " [" ++ tag ++ chars "] ").length : Nat) : Int) by
      rw [hlen2]; push_cast; ring]
    exact pySliceFrom_append _ content
  simp only [e1, if_neg ht_ne, hsliceTo, hstrip, hts, e2, if_neg ht_ne2, hslice_tag,
    htag, hfrom]
  cases mt <;> rfl

theorem pyStrip_eq_self_of (s : List Char) (c0 : Char) (h0 : s.head? = some c0)
    (hw0 : isPyWs c0 = false) (c1 : Char) (h1 : s.getLast? = some c1)
    (hw1 : isPyWs c1 = false) : pyStrip s = s := by
  apply pyStrip_eq_self
  · intro c hc
    rw [h0] at hc
    injection hc with h
    rw [← h]
    exact hw0
  · intro c hc
    rw [h1] at hc
    injection hc with h
    rw [← h]
    exact hw1

/-- C9: For every well-formed gift line — a free-gift or paid-gift tag, a valid
timestamp, and a content of the shape
`<user> 赠送了 <gift> x <qty>，总价 <value> <currency>` whose user and gift
tokens avoid the sub-grammar's delimiters — `parse_line` returns an event whose
username, gift name, quantity and value are exactly the embedded substrings, and
whose unique id is the non-empty string determined by the line. -/
theorem c9_gift_line_roundtrip (ts : List Char) (T : DateTime) (u g q v : List Char)
    (qn : Int) (xv : ℚ)
    (hts : pyStrptime ts = some T) (hbr1 : '[' ∉ ts)
    (hu : cleanTok u) (hg : cleanTok g)
    (hq2 : ∀ c ∈ q, c.isDigit = true)
    (hv2 : ∀ c ∈ v, c.isDigit = true ∨ c = '.')
    (hqn : pyInt q = some qn) (hxv : pyFloat v = some xv) :
    (parseLine (ts ++ chars " [" ++ chars "free_gift" ++ chars "] " ++
        (u ++ chars " 赠送了 " ++ g ++ chars " x " ++ q ++ chars "，总价 " ++ v ++
          (' ' :: '银' :: '瓜' :: '子' :: []))) =
      some { timestamp := T, type := .FREE_GIFT, username := u,
             content := .gift g qn xv ('银' :: '瓜' :: '子' :: []),
             unique_id := isoFormat T ++ chars "_" ++ u ++ chars "_free_gift" }) ∧
    (parseLine (ts ++ chars " [" ++ chars "paid_gift" ++ chars "] " ++
        (u ++ chars " 赠送了 " ++ g ++ chars " x " ++ q ++ chars "，总价 " ++ v ++
          (' ' :: '元' :: []))) =
      some { timestamp := T, type := .PAID_GIFT, username := u,
             content := .gift g qn xv ('元' :: []),
             unique_id := isoFormat T ++ chars "_" ++ u ++ chars "_paid_gift" }) ∧
    isoFormat T ++ chars "_" ++ u ++ chars "_free_gift" ≠ [] ∧
    isoFormat T ++ chars "_" ++ u ++ chars "_paid_gift" ≠ [] := by
  obtain ⟨uc, ur, hueq⟩ := List.exists_cons_of_ne_nil hu.1
  have hucw : isPyWs uc = false :=
    (hu.2 uc (by rw [hueq]; exact List.mem_cons_self uc ur)).1
  have hyu : '元' ∉ u := fun hm => (hu.2 _ hm).2.2.1 rfl
  have hyg : '元' ∉ g := fun hm => (hg.2 _ hm).2.2.1 rfl
  have hsu : '银' ∉ u := fun hm => (hu.2 _ hm).2.2.2.2 rfl
  have hsg : '银' ∉ g := fun hm => (hg.2 _ hm).2.2.2.2 rfl
  refine ⟨?_, ?_, ?_, ?_⟩
  · have hred := parseLine_reduces ts (chars "free_gift")
      (u ++ chars " 赠送了 " ++ g ++ chars " x " ++ q ++ chars "，总价 " ++ v ++
        (' ' :: '银' :: '瓜' :: '子' :: [])) T .FREE_GIFT hts (by decide) hbr1 (by decide)
    have hhead : (u ++ chars " 赠送了 " ++ g ++ chars " x " ++ q ++ chars "，总价 " ++ v ++
        (' ' :: '银' :: '瓜' :: '子' :: [])).head? = some uc := by
      rw [hueq]
      simp only [List.cons_append]
      rfl
    have hlast : (u ++ chars " 赠送了 " ++ g ++ chars " x " ++ q ++ chars "，总价 " ++ v ++
        (' ' :: '银' :: '瓜' :: '子' :: [])).getLast? = some '子' := by
      rw [List.getLast?_append_of_ne_nil _
        (by simp : (' ' :: '银' :: '瓜' :: '子' :: ([] : List Char)) ≠ [])]
      rfl
    have hstripc := pyStrip_eq_self_of _ uc hhead hucw '子' hlast (by decide)
    have hwf := parseGift_wf T u g q v '银' ('瓜' :: '子' :: []) .FREE_GIFT qn xv
      hu hg hq2 hv2 hqn hxv (by decide) (by decide) (by decide) hsu hsg
      (by decide) (by decide) (by decide)
    rw [hred, hstripc]
    exact hwf
  · have hred := parseLine_reduces ts (chars "paid_gift")
      (u ++ chars " 赠送了 " ++ g ++ chars " x " ++ q ++ chars "，总价 " ++ v ++
        (' ' :: '元' :: [])) T .PAID_GIFT hts (by decide) hbr1 (by decide)
    have hhead : (u ++ chars " 赠送了 " ++ g ++ chars " x " ++ q ++ chars "，总价 " ++ v ++
        (' ' :: '元' :: [])).head? = some uc := by
      rw [hueq]
      simp only [List.cons_append]
      rfl
    have hlast : (u ++ chars " 赠送了 " ++ g ++ chars " x " ++ q ++ chars "，总价 " ++ v ++
        (' ' :: '元' :: [])).getLast? = some '元' := by
      rw [List.getLast?_append_of_ne_nil _
        (by simp : (' ' :: '元' :: ([] : List Char)) ≠ [])]
      rfl
    have hstripc := pyStrip_eq_self_of _ uc hhead hucw '元' hlast (by decide)
    have hwf := parseGift_wf T u g q v '元' [] .PAID_GIFT qn xv
      hu hg hq2 hv2 hqn hxv (by decide) (by decide) (by decide) hyu hyg
      (by decide) (by decide) (by decide)
    rw [hred, hstripc]
    exact hwf
  · intro h
    have hl := congrArg List.length h
    have h10 : (chars "_free_gift").length = 10 := by decide
    simp only [List.length_append, List.length_nil, h10] at hl
    omega
  · intro h
    have hl := congrArg List.length h
    have h10 : (chars "_paid_gift").length = 10 := by decide
    simp only [List.length_append, List.length_nil, h10] at hl
    omega

theorem c9_gift_line_roundtrip_witness :
    parseLine (chars "2024-01-01 12:00:00" ++ chars " [" ++ chars "paid_gift" ++
        chars "] " ++ (chars "alice" ++ chars " 赠送了 " ++ chars "flower" ++
          chars " x " ++ chars "3" ++ chars "，总价 " ++ chars "5.5" ++
          (' ' :: '元' :: []))) =
      some { timestamp := ⟨2024, 1, 1, 12, 0, 0⟩, type := .PAID_GIFT,
             username := chars "alice",
             content := .gift (chars "flower") 3 (11 / 2) ('元' :: []),
             unique_id := isoFormat ⟨2024, 1, 1, 12, 0, 0⟩ ++ chars "_" ++
               chars "alice" ++ chars "_paid_gift" } :=
  (c9_gift_line_roundtrip (chars "2024-01-01 12:00:00") ⟨2024, 1, 1, 12, 0, 0⟩
    (chars "alice") (chars "flower") (chars "3") (chars "5.5") 3 (11 / 2)
    (by decide) (by decide) (by unfold cleanTok; decide) (by unfold cleanTok; decide)
    (by decide) (by decide) (by decide) (by decide)).2.1

theorem c6_id_determined_witness :
    ((parseLine (chars "2024-01-01 12:00:00 [superchat] bob 发送了 30 元的醒目留言：hello")).get
        (by decide)).unique_id =
      ((parseLine (chars "2024-01-01 12:00:00 [superchat] bob 发送了 40 元的醒目留言：bye")).get
        (by decide)).unique_id := by
  have h := c6_id_determined
    (chars "2024-01-01 12:00:00 [superchat] bob 发送了 30 元的醒目留言：hello")
    (chars "2024-01-01 12:00:00 [superchat] bob 发送了 40 元的醒目留言：bye")
    ((parseLine (chars "2024-01-01 12:00:00 [superchat] bob 发送了 30 元的醒目留言：hello")).get
      (by decide))
    ((parseLine (chars "2024-01-01 12:00:00 [superchat] bob 发送了 40 元的醒目留言：bye")).get
      (by decide))
    (Option.some_get (by decide)).symm
    (Option.some_get (by decide)).symm
    (by decide) (by decide) (by decide)
  exact h.1 (by decide)

end BiliUtility
